import Mathlib

/-!
Verification of the Leonie inbound-document intake agent.

This file gives a shallow embedding, in Lean 4, of the core data model and
operations of the Leonie repository (entity resolution, document
consolidation against a remote master file, classification fallback, case
memory, and the orchestrator glue), translated from the Python sources:

* `backend/app/services/client_identifier.py`
* `backend/app/services/document_orchestrator.py`
* `backend/app/services/document.py`
* `backend/app/services/context_manager.py`
* `backend/app/services/email_agent.py`
* `backend/app/workers/jobs.py`
* `backend/app/utils/db.py`
* `app/services/mistral.py`

External collaborators (the Mistral classification oracle, the Google
Drive blob store, the Supabase persistence layer and the filesystem) are
modelled as explicit state and environment parameters.  Machine "ids" are
natural numbers, PDF documents are their lists of pages (pages are
abstract tokens), and Python exceptions are `Except` values.
-/

set_option autoImplicit false

namespace Leonie

/-- Abstract page of a PDF document. -/
abbrev Page := Nat

/-- The ASCII apostrophe character, used by several name-normalisation steps. -/
def aposChar : Char := Char.ofNat 39

/-- The ASCII double-quote character. -/
def dquoteChar : Char := Char.ofNat 34

/-! The Python string methods used by the sources (`lower`, `upper`,
`strip`, `replace` on single characters, slicing, membership, `split`)
are modelled character-wise on the underlying character list, so that
every definition evaluates by kernel reduction on concrete inputs. -/

/-- Python `str.lower()` (ASCII casing). -/
def pyLower (s : String) : String := String.mk (s.data.map Char.toLower)

/-- Python `str.upper()` (ASCII casing). -/
def pyUpper (s : String) : String := String.mk (s.data.map Char.toUpper)

/-- Python `str.strip()`. -/
def pyTrim (s : String) : String :=
  String.mk (((s.data.dropWhile Char.isWhitespace).reverse.dropWhile Char.isWhitespace).reverse)

/-- Python `str.replace(c, d)` for one-character patterns. -/
def replaceChar (s : String) (c d : Char) : String :=
  String.mk (s.data.map (fun x => if x = c then d else x))

/-- Python `str.replace(c, "")` for one-character patterns. -/
def removeChar (s : String) (c : Char) : String :=
  String.mk (s.data.filter (fun x => !(x == c)))

/-- Python `c in s` for a character. -/
def strContainsChar (s : String) (c : Char) : Bool := s.data.contains c

/-- Python `s[:n]`. -/
def pyTake (s : String) (n : Nat) : String := String.mk (s.data.take n)

/-- Splitting helper for `splitChar`. -/
def splitCharAux (c : Char) : List Char → List Char → List (List Char)
  | [], acc => [acc.reverse]
  | x :: xs, acc =>
    if x = c then acc.reverse :: splitCharAux c xs []
    else splitCharAux c xs (x :: acc)

/-- Python `str.split(c)` on a one-character separator. -/
def splitChar (s : String) (c : Char) : List String :=
  (splitCharAux c s.data []).map String.mk

/-! ## Entity data model (tables `courtiers`, `clients` of `utils/db.py`) -/

/-- A broker row (table `courtiers`): owner of client cases and of a root
Drive folder. -/
structure Courtier where
  id : Nat
  email : String
  dossier_drive_id : Option Nat
  actif : Bool
  deriving Repr, DecidableEq

/-- A client case row (table `clients`). -/
structure Client where
  id : Nat
  courtier_id : Nat
  nom : String
  prenom : String
  email_principal : String
  emails_secondaires : List String
  dossier_drive_id : Option Nat
  type_pret : String
  statut : String
  deriving Repr, DecidableEq

/-! ## Email extraction (`ClientIdentifier.extract_all_emails_from_message`)

The Python function accumulates addresses into a `set`; we model the set
as a duplicate-free list in insertion order.  The two regex scans over the
message body (the generic address pattern and the forwarded-header
patterns) are modelled by their result lists `bodyEmails` and
`fwdMatches`, which are taken as inputs: the claims proved below hold for
every possible outcome of the regex engine. -/

/-- Insert a string into a duplicate-free accumulator (Python `set.add`). -/
def insertEmail (l : List String) (e : String) : List String :=
  if e ∈ l then l else l ++ [e]

/-- Cleanup applied to a forwarded-header match:
`re.sub` removing the characters `<`, `>`, `"`, the apostrophe, `(`, `)`,
followed by `strip()`. -/
def cleanForwardMatch (m : String) : String :=
  pyTrim (String.mk (m.data.filter (fun c =>
    !(c == '<' || c == '>' || c == dquoteChar || c == aposChar || c == '(' || c == ')'))))

/-- Embedding of `ClientIdentifier.extract_all_emails_from_message`.
`bodyEmails` are the matches of the generic address regex in the body and
`fwdMatches` the matches of the forwarded-header patterns
(`De:`/`From:`/`Expéditeur:`/`Fra:`). -/
def extract_all_emails_from_message (fromAddress : String)
    (toAddresses ccAddresses : List String)
    (bodyEmails fwdMatches : List String) : List String :=
  let s0 : List String := if fromAddress ≠ "" then insertEmail [] (pyLower fromAddress) else []
  let s1 := (toAddresses ++ ccAddresses).foldl
    (fun acc addr => if addr ≠ "" then insertEmail acc (pyLower addr) else acc) s0
  let s2 := bodyEmails.foldl (fun acc e => insertEmail acc (pyLower e)) s1
  fwdMatches.foldl
    (fun acc m =>
      let clean := cleanForwardMatch m
      if strContainsChar clean '@' && strContainsChar clean '.' then
        insertEmail acc (pyLower clean)
      else acc)
    s2

/-! ## Client lookup helpers (`utils/db.py`) -/

/-- Embedding of `get_client_by_email`: first client whose primary address
equals `email` (optionally restricted to one broker). -/
def get_client_by_email (clients : List Client) (email : String)
    (courtier_id : Option Nat) : Option Client :=
  clients.find? (fun c =>
    c.email_principal == email &&
      (match courtier_id with
       | some cid => c.courtier_id == cid
       | none => true))

/-- Principal-address pass of `find_client_by_email_list`: try each
candidate address in listed order. -/
def findByPrincipalPass (clients : List Client) (emails : List String)
    (cid : Nat) : Option Client :=
  match emails with
  | [] => none
  | e :: rest =>
    match get_client_by_email clients e (some cid) with
    | some c => some c
    | none => findByPrincipalPass clients rest cid

/-- Embedding of `find_client_by_email_list`: principal-address pass, then
first client of the broker one of whose listed secondary addresses occurs
in the candidate list. -/
def find_client_by_email_list (clients : List Client) (emails : List String)
    (cid : Nat) : Option Client :=
  match findByPrincipalPass clients emails cid with
  | some c => some c
  | none =>
    (clients.filter (fun c => c.courtier_id == cid)).find?
      (fun c => emails.any (fun e => e ∈ c.emails_secondaires))

/-- Embedding of `add_secondary_email` (`utils/db.py`): append `email` to
the client's secondary list when it is not already listed. -/
def add_secondary_email (clients : List Client) (client_id : Nat)
    (email : String) : List Client :=
  match clients.find? (fun c => c.id == client_id) with
  | none => clients
  | some c =>
    if email ∈ c.emails_secondaires then clients
    else clients.map (fun d =>
      if d.id == client_id
      then { d with emails_secondaires := d.emails_secondaires ++ [email] }
      else d)

/-! ## Client identification (`ClientIdentifier.identify_client_from_email`) -/

/-- The fixed exclusion list of `identify_client_from_email` and
`create_client_from_email_and_classification`: the broker's own address
plus the system service addresses. -/
def excludedEmails (courtierEmail : String) : List String :=
  [pyLower courtierEmail,
   "leonie@voxperience.com",
   "contact@voxperience.com",
   "noreply@voxperience.com"]

/-- Candidate addresses: every extracted address that is neither excluded
nor empty. -/
def candidateEmails (allEmails : List String) (courtierEmail : String) : List String :=
  allEmails.filter (fun e => !((excludedEmails courtierEmail).contains e) && !(e == ""))

/-- Result of `identify_client_from_email`: the matched client (if any)
and the possibly updated client table. -/
structure IdentifyResult where
  client : Option Client
  clients : List Client
  deriving Repr, DecidableEq

/-- Embedding of `ClientIdentifier.identify_client_from_email`.
`allEmails` is the output of `extract_all_emails_from_message` for the
message being processed. -/
def identify_client_from_email (clients : List Client) (allEmails : List String)
    (courtier : Courtier) : IdentifyResult :=
  let cands := candidateEmails allEmails courtier.email
  match find_client_by_email_list clients cands courtier.id with
  | none => ⟨none, clients⟩
  | some client =>
    let principal := pyLower client.email_principal
    let lowSecs := client.emails_secondaires.map pyLower
    let matched : Option String :=
      if principal ∈ cands then some principal
      else cands.find? (fun e => e ∈ lowSecs)
    match matched with
    | some m =>
      if m ≠ principal ∧ m ∉ lowSecs
      then ⟨some client, add_secondary_email clients client.id m⟩
      else ⟨some client, clients⟩
    | none => ⟨some client, clients⟩

/-! ## Google Drive blob store (`services/drive.py`)

The store is name-keyed and offers only flat create/find/download/update
primitives.  File and folder identifiers are naturals drawn from a
counter. -/

/-- A stored file: identifier, name, containing folder, content (pages). -/
structure DriveFile where
  id : Nat
  name : String
  folder : Nat
  pages : List Page
  deriving Repr, DecidableEq

/-- A stored folder: identifier, name, parent folder. -/
structure DriveFolder where
  id : Nat
  name : String
  parent : Nat
  deriving Repr, DecidableEq

/-- The Drive service state. -/
structure DriveState where
  files : List DriveFile
  folders : List DriveFolder
  nextId : Nat
  deriving Repr, DecidableEq

/-- Embedding of `DriveManager.find_file_by_name`: the Drive query returns
the first (non-trashed) file with exactly this name in the folder, or
`None`. -/
def find_file_by_name (st : DriveState) (filename : String) (folder_id : Nat) : Option Nat :=
  ((st.files.filter (fun f => f.name == filename && f.folder == folder_id)).head?).map (·.id)

/-- Embedding of `DriveManager.upload_file`: create a new file with a
fresh identifier. -/
def upload_file (st : DriveState) (pages : List Page) (folder_id : Nat)
    (filename : String) : Nat × DriveState :=
  (st.nextId,
   { st with files := st.files ++ [⟨st.nextId, filename, folder_id, pages⟩],
             nextId := st.nextId + 1 })

/-- Embedding of `DriveManager.download_file`: content of the file with
this identifier, `none` when absent (the Python call raises). -/
def download_file (st : DriveState) (file_id : Nat) : Option (List Page) :=
  (st.files.find? (fun f => f.id == file_id)).map (·.pages)

/-- Embedding of `DriveManager.update_file`: overwrite the content of an
existing file in place, keeping its identifier and name. -/
def update_file (st : DriveState) (file_id : Nat) (pages : List Page) : DriveState :=
  { st with files := st.files.map (fun f =>
      if f.id == file_id then { f with pages := pages } else f) }

/-- Embedding of `DriveManager.folder_exists`: the first folder with this
name under this parent. -/
def folder_exists (st : DriveState) (name : String) (parent : Nat) : Option Nat :=
  ((st.folders.filter (fun f => f.name == name && f.parent == parent)).head?).map (·.id)

/-- Embedding of `DriveManager.create_folder`. -/
def create_folder (st : DriveState) (name : String) (parent : Nat) : Nat × DriveState :=
  (st.nextId,
   { st with folders := st.folders ++ [⟨st.nextId, name, parent⟩],
             nextId := st.nextId + 1 })

/-- Embedding of `DriveManager.get_or_create_folder`. -/
def get_or_create_folder (st : DriveState) (name : String) (parent : Nat) : Nat × DriveState :=
  match folder_exists st name parent with
  | some fid => (fid, st)
  | none => create_folder st name parent

/-! ## Classification results (`models/email.py`) -/

/-- The classified intent (`EmailAction`). -/
inductive EmailAction where
  | NOUVEAU_DOSSIER
  | ENVOI_DOCUMENTS
  | MODIFIER_LISTE
  | QUESTION
  | CONTEXTE
  deriving Repr, DecidableEq

/-- Intent-specific detail map of a classification result; optional fields
model the keys that may occur in the Python `details` dict. -/
structure Details where
  client_nom : Option String := none
  client_prenom : Option String := none
  type_pret : Option String := none
  nombre_pieces : Option Nat := none
  sujet : Option String := none
  urgent : Option Bool := none
  deriving Repr, DecidableEq

/-- Embedding of `EmailClassification`; `confiance` is an exact rational
standing for the Python float. -/
structure EmailClassification where
  action : EmailAction
  resume : String
  confiance : ℚ
  details : Details
  deriving Repr, DecidableEq

/-- An attachment of an inbound message: filename and content, the latter
abstracted to the list of pages of its PDF rendition. -/
structure EmailAttachment where
  filename : String
  content : List Page
  deriving Repr, DecidableEq

/-- Embedding of the inbound message (`EmailData`), restricted to the
fields the verified code paths read. -/
structure EmailData where
  from_address : String
  to_addresses : List String
  cc_addresses : List String
  subject : String
  body_text : String
  attachments : List EmailAttachment
  deriving Repr, DecidableEq

/-! ## Client creation
(`ClientIdentifier.create_client_from_email_and_classification`) -/

/-- Python `client_prenom or 'client'` (both `None` and the empty string
fall back). -/
def prenomOrClient (prenom : Option String) : String :=
  match prenom with
  | some p => if p == "" then "client" else p
  | none => "client"

/-- The generated temporary address
`f"{client_prenom or 'client'}.{client_nom}@temp.leonie.local".lower()`. -/
def tempEmail (prenom : Option String) (nom : String) : String :=
  pyLower (prenomOrClient prenom ++ "." ++ nom ++ "@temp.leonie.local")

/-- Result of a successful client creation. -/
structure CreateClientResult where
  client : Client
  clients : List Client
  nextClientId : Nat
  drive : DriveState
  deriving Repr, DecidableEq

/-- Embedding of
`ClientIdentifier.create_client_from_email_and_classification`.
Errors model the Python `ValueError`s (missing client name in the
classification; broker without a Drive folder). -/
def create_client_from_email_and_classification (clients : List Client)
    (nextClientId : Nat) (allEmails : List String) (courtier : Courtier)
    (details : Details) (drive : DriveState) : Except String CreateClientResult :=
  match details.client_nom with
  | none => .error "Impossible de créer client : nom manquant dans classification"
  | some client_nom =>
    if client_nom == "" then
      .error "Impossible de créer client : nom manquant dans classification"
    else
      let cands := candidateEmails allEmails courtier.email
      let client_email :=
        match cands.head? with
        | some e => e
        | none => tempEmail details.client_prenom client_nom
      match courtier.dossier_drive_id with
      | none => .error "Courtier n'a pas de dossier_drive_id. Impossible de créer dossier client."
      | some courtier_folder =>
        let folder_name := pyTrim ("CLIENT_" ++ client_nom ++ "_" ++ (details.client_prenom.getD ""))
        let (folder_id, drive1) := get_or_create_folder drive folder_name courtier_folder
        let newClient : Client :=
          { id := nextClientId
            courtier_id := courtier.id
            nom := client_nom
            prenom := details.client_prenom.getD ""
            email_principal := client_email
            emails_secondaires := []
            dossier_drive_id := some folder_id
            type_pret := details.type_pret.getD "immobilier"
            statut := "en_cours" }
        .ok ⟨newClient, clients ++ [newClient], nextClientId + 1, drive1⟩

/-! ## Classification with retry and fallback (`app/services/mistral.py`) -/

/-- Outcome of one attempt of the classification oracle call:
a parsed classification, a JSON parse error, or any other API error. -/
inductive AttemptOutcome where
  | ok (c : EmailClassification)
  | jsonError
  | apiError
  deriving Repr, DecidableEq

/-- Embedding of `MistralService._get_fallback_classification`. -/
def get_fallback_classification (email : EmailData) : EmailClassification :=
  if email.attachments.length > 0 then
    { action := .ENVOI_DOCUMENTS
      resume := "Classification fallback: " ++ pyTake email.subject 100
      confiance := 3/10
      details := { nombre_pieces := some email.attachments.length } }
  else
    { action := .QUESTION
      resume := "Classification fallback: " ++ pyTake email.subject 100
      confiance := 3/10
      details := { sujet := some "Classification automatique échouée", urgent := some false } }

/-- The retry loop of `classify_email` over the remaining attempt numbers
(Python `for attempt in range(1, max_retries + 1)`); the guard
`attempt == max_retries` corresponds to the tail being empty. -/
def classifyAttempts (oracle : Nat → AttemptOutcome) (email : EmailData) :
    List Nat → EmailClassification
  | [] => get_fallback_classification email
  | a :: rest =>
    match oracle a with
    | .ok c => c
    | _ =>
      if rest.isEmpty then get_fallback_classification email
      else classifyAttempts oracle email rest

/-- Embedding of `MistralService.classify_email` with `max_retries = 3`:
the oracle is a function from the attempt number to that attempt's
outcome. -/
def classify_email (oracle : Nat → AttemptOutcome) (email : EmailData) :
    EmailClassification :=
  classifyAttempts oracle email [1, 2, 3]

/-! ## Case memory (`services/context_manager.py`) -/

/-- A case narrative row (table `contexte_dossiers`): running summary and
last-update stamp. -/
structure DossierContext where
  client_id : Nat
  summary : Option String
  last_update : Nat
  deriving Repr, DecidableEq

/-- Modelled from the spec: `get_dossier_context` is a persistence
`find-by-id` call (§6 Persistence Service); the function itself is
imported by `context_manager.py` from `app.utils.db` but its definition
is not under `src/`. -/
def get_dossier_context (store : List DossierContext) (client_id : Nat) :
    Option DossierContext :=
  store.find? (fun c => c.client_id == client_id)

/-- Modelled from the spec: `create_dossier_context` lazily creates the
narrative row with a neutral "case opened" placeholder (§4.3 step 1); not
under `src/`. -/
def create_dossier_context (store : List DossierContext) (client_id : Nat) :
    DossierContext × List DossierContext :=
  let ctx : DossierContext := ⟨client_id, some "Dossier ouvert.", 0⟩
  (ctx, store ++ [ctx])

/-- Modelled from the spec: `update_dossier_context` is a persistence
upsert of the summary and last-update fields keyed by the case id (§6);
not under `src/`. -/
def update_dossier_context (store : List DossierContext) (client_id : Nat)
    (summary : String) (now : Nat) : List DossierContext :=
  store.map (fun c =>
    if c.client_id == client_id
    then { c with summary := some summary, last_update := now }
    else c)

/-- Embedding of `ContextManager.get_or_init_context`. -/
def get_or_init_context (store : List DossierContext) (client_id : Nat) :
    DossierContext × List DossierContext :=
  match get_dossier_context store client_id with
  | some ctx => (ctx, store)
  | none => create_dossier_context store client_id

/-- Python `context.get("summary") or "Dossier initié. Pas d'historique."`
(the default also replaces an empty summary). -/
def currentSummaryOf (ctx : DossierContext) : String :=
  match ctx.summary with
  | some s => if s == "" then "Dossier initié. Pas d" ++ String.singleton aposChar ++ "historique." else s
  | none => "Dossier initié. Pas d" ++ String.singleton aposChar ++ "historique."

/-- Embedding of `ContextManager.update_context_with_email`.  The memory
oracle (`MistralService.update_narrative_context`, called but not defined
under `src/`) is modelled from the spec (§4.3 step 2, §6): it maps the
current narrative and the new event to a replacement narrative, or fails;
`none` models the failed (raising) call.  On failure the exception
propagates and no store update is performed. -/
def update_context_with_email (oracle : String → String → Option String)
    (store : List DossierContext) (client_id : Nat) (email_content : String)
    (action_type : String) (now : Nat) :
    Except (String × List DossierContext) (List DossierContext) :=
  let (ctx, store1) := get_or_init_context store client_id
  let current_summary := currentSummaryOf ctx
  let new_event := "Email reçu (" ++ action_type ++ "): " ++ pyTake email_content 500 ++ "..."
  match oracle current_summary new_event with
  | none => .error ("Erreur appel Mistral (update_narrative_context)", store1)
  | some new_summary => .ok (update_dossier_context store1 client_id new_summary now)

/-! ## Document processing (`services/document.py`) -/

/-- The temporary working directory of `DocumentProcessor` (abstracted). -/
def tempDir : String := "/tmp/"

/-- The ASCII apostrophe as a one-character string. -/
def aposS : String := String.singleton aposChar

/-- Final path component (`pathlib.Path.name`). -/
def lastComponent (p : String) : String :=
  (splitChar p '/').getLastD p

/-- Embedding of `pathlib.Path.suffix`: the final dot-suffix of the last
component; hidden files (a single leading dot) and trailing dots have no
suffix. -/
def pathExt (p : String) : String :=
  let name := lastComponent p
  match (splitChar name '.').reverse with
  | [] => ""
  | [_] => ""
  | ext :: restRev =>
    if restRev == [""] then ""
    else if ext == "" then ""
    else "." ++ ext

/-- Embedding of `pathlib.Path.stem`: the last component without its
suffix. -/
def pathStem (p : String) : String :=
  let name := lastComponent p
  name.dropRight (pathExt p).length

/-- Image extensions accepted by `convert_to_pdf`. -/
def imageExts : List String :=
  [".jpg", ".jpeg", ".png", ".gif", ".bmp", ".tiff", ".tif", ".webp", ".heic"]

/-- Office extensions accepted by `convert_to_pdf`. -/
def officeExts : List String :=
  [".docx", ".doc", ".xlsx", ".xls", ".pptx", ".ppt", ".odt", ".ods", ".odp"]

/-- Environment of the document orchestrator: the behaviour of the
external collaborators (Mistral type analysis, Pillow/LibreOffice
conversions, Drive transfers).  Success flags are keyed by the argument
of the corresponding call. -/
structure OrchEnv where
  analyze : String → String
  heifSupport : Bool
  maxSizeOk : String → Bool
  imageConvertOk : String → Bool
  officeConvertOk : String → Bool
  downloadOk : Nat → Bool
  updateOk : Nat → Bool
  uploadOk : String → Bool

/-- Embedding of `DocumentProcessor.convert_to_pdf` on a file at `path`.
Result `ok none` models the Python `None` return (failed image
conversion); `error` models a raised exception (oversized file,
unsupported HEIC, LibreOffice failure, unsupported format).  PDF inputs
are returned unchanged; conversions keep the content and rename the path
as the source does. -/
def convert_to_pdf (env : OrchEnv) (path : String) : Except String (Option String) :=
  if !env.maxSizeOk path then .error "Fichier trop gros" else
  let ext := pyLower (pathExt path)
  if ext == ".pdf" then .ok (some path)
  else if ext ∈ imageExts then
    if ext == ".heic" && !env.heifSupport then .error "Format HEIC non supporté"
    else if env.imageConvertOk path then .ok (some (tempDir ++ pathStem path ++ "_converted.pdf"))
    else .ok none
  else if ext ∈ officeExts then
    if env.officeConvertOk path then .ok (some (tempDir ++ pathStem path ++ ".pdf"))
    else .error "Erreur LibreOffice"
  else .error ("Format de fichier non supporté: " ++ ext)

/-- Embedding of `DocumentProcessor.merge_pdfs` (called with its default
keyword arguments everywhere in the orchestrator): concatenation of the
input PDFs' pages, raising on an empty input list. -/
def merge_pdfs (pdfs : List (List Page)) : Except String (List Page) :=
  if pdfs.isEmpty then .error "Liste de PDFs vide" else .ok pdfs.flatten

/-! ## Document orchestrator (`services/document_orchestrator.py`) -/

/-- Embedding of the key normalisation of `_load_known_types` and
`_resolve_type_id_from_master`: uppercase, spaces to underscores,
apostrophes removed. -/
def normalizeTypeKey (s : String) : String :=
  removeChar (replaceChar (pyUpper s) ' ' '_') aposChar

/-- First-match lookup in an association list (Python `dict.get`). -/
def lookupAssoc {α : Type} (l : List (String × α)) (k : String) : Option α :=
  (l.find? (fun p => p.1 == k)).map (·.2)

/-- The `legacy_mapping` table of `DocumentOrchestrator.__init__`. -/
def legacy_mapping : List (String × String) :=
  [("CNI", "Pièce d" ++ aposS ++ "identité"),
   ("BULLETIN_SALAIRE", "Bulletins de salaire"),
   ("AVIS_IMPOT", "Avis d" ++ aposS ++ "imposition"),
   ("RELEVE_BANCAIRE", "Dernier relevé de compte"),
   ("KBIS", "Kbis"),
   ("LIVRET_FAMILLE", "Livret de famille")]

/-- Embedding of `DocumentOrchestrator._resolve_type_id_from_master`:
direct normalised lookup in the catalog, then via the legacy alias
table.  `known` is the catalog loaded by `_load_known_types`, keyed by
normalised names. -/
def resolve_type_id_from_master (known : List (String × Nat)) (master_type : String) :
    Option Nat :=
  match lookupAssoc known (normalizeTypeKey master_type) with
  | some tid => some tid
  | none =>
    match lookupAssoc legacy_mapping master_type with
    | some legacy_name => lookupAssoc known (normalizeTypeKey legacy_name)
    | none => none

/-- Embedding of `DocumentOrchestrator._get_master_type`: the CNI
sub-types collapse to the master type `CNI`. -/
def get_master_type (raw : String) : String :=
  if raw == "CNI_RECTO" || raw == "CNI_VERSO" || raw == "CNI_COMPLETE" then "CNI" else raw

/-- Python `str.title()`, restricted to ASCII casing: a letter is
uppercased after a non-letter and lowercased after a letter. -/
def pyTitleGo : List Char → Bool → List Char
  | [], _ => []
  | c :: cs, prevAlpha =>
    (if prevAlpha then c.toLower else c.toUpper) :: pyTitleGo cs c.isAlpha

/-- Python `str.title()` on a string. -/
def pyTitle (s : String) : String := String.mk (pyTitleGo s.data false)

/-- The cosmetic file-name table of `_generate_master_name`. -/
def pretty_names : List (String × String) :=
  [("CNI", "CNI"),
   ("BULLETIN_SALAIRE", "Bulletin_Salaire"),
   ("AVIS_IMPOT", "Avis_Impot"),
   ("RELEVE_BANCAIRE", "Releves_Bancaires"),
   ("KBIS", "KBIS"),
   ("LIVRET_FAMILLE", "Livret_Famille"),
   ("AUTRE_DOCUMENT", "Documents_Divers")]

/-- Embedding of `DocumentOrchestrator._generate_master_name`: the
canonical master file name, a pure function of the master type and the
client's name (no date). -/
def generate_master_name (master_type : String) (client : Client) : String :=
  let client_str := replaceChar (pyUpper (client.nom ++ "_" ++ client.prenom)) ' ' '_'
  let nice_type :=
    match lookupAssoc pretty_names master_type with
    | some t => t
    | none =>
      removeChar (removeChar (replaceChar (pyTitle master_type) ' ' '_') aposChar) dquoteChar
  nice_type ++ "_" ++ client_str ++ ".pdf"

/-- A local working file: its path and the pages of its PDF rendition. -/
abbrev LocalFile := String × List Page

/-- The conversion loop at the head of `_consolidate_local_files`:
convert every file, keeping the successful conversions in order; a raised
conversion error propagates. -/
def convertAll (env : OrchEnv) : List LocalFile → Except String (List LocalFile)
  | [] => .ok []
  | (p, pg) :: rest =>
    match convert_to_pdf env p with
    | .error e => .error e
    | .ok none => convertAll env rest
    | .ok (some p2) =>
      match convertAll env rest with
      | .error e => .error e
      | .ok acc => .ok ((p2, pg) :: acc)

/-- Embedding of `DocumentOrchestrator._consolidate_local_files`:
convert every file of a group to PDF, short-circuit a single file, sort
the converted paths and merge.  `ok none` models the Python `None`
return (nothing consolidable). -/
def consolidate_local_files (env : OrchEnv) (paths : List LocalFile)
    (master_type : String) (client_id : Nat) : Except String (Option LocalFile) :=
  if paths.isEmpty then .ok none
  else
    match convertAll env paths with
    | .error e => .error e
    | .ok pdf_paths =>
      match pdf_paths with
      | [] => .ok none
      | [single] => .ok (some single)
      | _ =>
        let sorted := pdf_paths.mergeSort (fun a b => decide (a.1 ≤ b.1))
        let output := tempDir ++ "consolidation_" ++ master_type ++ "_" ++ toString client_id ++ ".pdf"
        match merge_pdfs (sorted.map (·.2)) with
        | .ok merged => .ok (some (output, merged))
        | .error _ => .ok (sorted.head?)

/-! ## Document records (table `pieces_dossier`) -/

/-- A document record row; the `metadata` blob is flattened to its three
used keys (`nom_fichier`, `source`, `nature_detectee`). -/
structure Piece where
  id : Nat
  client_id : Nat
  type_piece_id : Option Nat
  statut : String
  fichier_drive_id : Option Nat
  nom_fichier : Option String
  source : Option String
  nature_detectee : Option String
  date_reception : Nat
  deriving Repr, DecidableEq

/-- The document-record table with its id counter. -/
structure PiecesDb where
  pieces : List Piece
  nextId : Nat
  deriving Repr, DecidableEq

/-- Embedding of `DocumentOrchestrator._register_in_database`: resolve
the catalog type, find an existing record of the client (by stored file
id, by type id, or by detected nature for ad-hoc types), then update it
or create a new one.  Returns the record id. -/
def register_in_database (known : List (String × Nat)) (db : PiecesDb)
    (client_id : Nat) (master_type final_name : String) (file_id : Nat)
    (now : Nat) : Option Nat × PiecesDb :=
  let type_id := resolve_type_id_from_master known master_type
  let existing := db.pieces.filter (fun p => p.client_id == client_id)
  let target := existing.find? (fun p =>
    (p.fichier_drive_id == some file_id) ||
    (match type_id with | some t => p.type_piece_id == some t | none => false) ||
    (type_id.isNone && p.type_piece_id.isNone && (p.nature_detectee == some master_type)))
  let nature : Option String :=
    match type_id with
    | some _ => none
    | none =>
      if master_type == "AUTRE_DOCUMENT" || master_type == "INCONNU" then none
      else some master_type
  match target with
  | some p =>
    let updated := db.pieces.map (fun q =>
      if q.id == p.id then
        { q with
            statut := "recue"
            fichier_drive_id := some file_id
            date_reception := now
            type_piece_id := (match type_id with | some t => some t | none => q.type_piece_id)
            nom_fichier := some final_name
            source := some "email_agent"
            nature_detectee := nature }
      else q)
    (some p.id, { db with pieces := updated })
  | none =>
    let newPiece : Piece :=
      { id := db.nextId
        client_id := client_id
        type_piece_id := type_id
        statut := "recue"
        fichier_drive_id := some file_id
        nom_fichier := some final_name
        source := some "email_agent"
        nature_detectee := nature
        date_reception := now }
    (some db.nextId, { pieces := db.pieces ++ [newPiece], nextId := db.nextId + 1 })

/-- One entry of the `processed_docs` result list of
`process_attachments`. -/
structure ProcessedDoc where
  original_name : String
  final_name : String
  type : String
  file_id : Nat
  status : String
  db_id : Option Nat
  deriving Repr, DecidableEq

/-- The mutable state the orchestrator acts on: the Drive store and the
document-record table. -/
structure OrchState where
  drive : DriveState
  db : PiecesDb
  deriving Repr, DecidableEq

/-- Append a value under a key, keeping first-appearance key order
(Python dict-of-lists insertion). -/
def addToGroup (groups : List (String × List LocalFile)) (key : String)
    (v : LocalFile) : List (String × List LocalFile) :=
  if groups.any (fun g => g.1 == key) then
    groups.map (fun g => if g.1 == key then (g.1, g.2 ++ [v]) else g)
  else groups ++ [(key, [v])]

/-- The grouping loop of `process_attachments` (step 1): save each
attachment to the temp directory, ask the analysis oracle for its raw
type, collapse to the master type and group. -/
def groupAttachments (env : OrchEnv) (atts : List EmailAttachment) :
    List (String × List LocalFile) :=
  atts.foldl
    (fun groups att =>
      let temp_path := tempDir ++ att.filename
      let master := get_master_type (env.analyze att.filename)
      addToGroup groups master (temp_path, att.content))
    []

/-- The try-body of the per-group loop of `process_attachments`
(consolidate locally, derive the master name, append to the existing
master file or create it, register the record).  An error models a raised
exception, carrying the state at the raise point. -/
def processGroup (env : OrchEnv) (known : List (String × Nat)) (client : Client)
    (folder_id : Nat) (now : Nat) (st : OrchState) (master_type : String)
    (paths : List LocalFile) :
    Except (String × OrchState) (Option ProcessedDoc × OrchState) :=
  match consolidate_local_files env paths master_type client.id with
  | .error e => .error (e, st)
  | .ok none => .ok (none, st)
  | .ok (some local_pdf) =>
    let final_name := generate_master_name master_type client
    match find_file_by_name st.drive final_name folder_id with
    | some existing_file_id =>
      if !env.downloadOk existing_file_id then .error ("Erreur téléchargement Drive", st)
      else
        match download_file st.drive existing_file_id with
        | none => .error ("Erreur téléchargement Drive", st)
        | some existing_pages =>
          match merge_pdfs [existing_pages, local_pdf.2] with
          | .error e => .error (e, st)
          | .ok merged =>
            if !env.updateOk existing_file_id then .error ("Erreur mise à jour Drive", st)
            else
              let drive1 := update_file st.drive existing_file_id merged
              let (db_id, db1) :=
                register_in_database known st.db client.id master_type final_name existing_file_id now
              .ok (some
                { original_name := toString paths.length ++ " fichiers fusionnés"
                  final_name := final_name
                  type := master_type
                  file_id := existing_file_id
                  status := "processed"
                  db_id := db_id },
                ⟨drive1, db1⟩)
    | none =>
      if !env.uploadOk final_name then .error ("Erreur upload Drive", st)
      else
        let (fid, drive1) := upload_file st.drive local_pdf.2 folder_id final_name
        let (db_id, db1) :=
          register_in_database known st.db client.id master_type final_name fid now
        .ok (some
          { original_name := toString paths.length ++ " fichiers fusionnés"
            final_name := final_name
            type := master_type
            file_id := fid
            status := "processed"
            db_id := db_id },
          ⟨drive1, db1⟩)

/-- The per-group loop of `process_attachments` (step 2): a raised group
error is caught and logged, and the loop continues with the remaining
groups from the state left by the failed group. -/
def processGroupsLoop (env : OrchEnv) (known : List (String × Nat)) (client : Client)
    (folder_id : Nat) (now : Nat) :
    OrchState → List (String × List LocalFile) → List ProcessedDoc × OrchState
  | st, [] => ([], st)
  | st, (mt, paths) :: rest =>
    match processGroup env known client folder_id now st mt paths with
    | .error (_, st2) => processGroupsLoop env known client folder_id now st2 rest
    | .ok (none, st2) => processGroupsLoop env known client folder_id now st2 rest
    | .ok (some doc, st2) =>
      let (docs, st3) := processGroupsLoop env known client folder_id now st2 rest
      (doc :: docs, st3)

/-- Embedding of `DocumentOrchestrator.process_attachments`.  When the
client has no Drive folder the Python function logs an error and returns
the empty list (it does not raise); the `Except` result makes the absence
of an exception explicit. -/
def process_attachments (env : OrchEnv) (known : List (String × Nat))
    (atts : List EmailAttachment) (client : Client) (st : OrchState) (now : Nat) :
    Except String (List ProcessedDoc × OrchState) :=
  match client.dossier_drive_id with
  | none => .ok ([], st)
  | some folder_id =>
    .ok (processGroupsLoop env known client folder_id now st (groupAttachments env atts))

/-! ## Attachment job (`workers/jobs.py::process_envoi_documents`) -/

/-- A worker-job attachment: filename and decoded byte content (the pages
abstraction doubles as the byte string here). -/
structure JobAttachment where
  filename : String
  content : List Nat
  deriving Repr, DecidableEq

/-- One entry of the `pieces_traitees` result list. -/
structure TreatedPiece where
  filename : String
  file_id : Nat
  file_hash : String
  deriving Repr, DecidableEq

/-- Embedding of the per-attachment loop of `process_envoi_documents`
(jobs.py lines 280-341): skip empty content, compute the content hash
(`calculate_file_hash`, abstracted to a function of the bytes), then
upload to the client's Drive folder unconditionally — the duplicate check
against stored records is absent from the body (it appears only as a
`TODO Session 7` comment). -/
def process_envoi_documents_loop (hash : List Nat → String)
    (client_folder_id : Nat) :
    DriveState → List JobAttachment → List TreatedPiece × DriveState
  | st, [] => ([], st)
  | st, att :: rest =>
    if att.content.isEmpty then process_envoi_documents_loop hash client_folder_id st rest
    else
      let file_hash := hash att.content
      let (fid, st1) := upload_file st att.content client_folder_id att.filename
      let (entries, st2) := process_envoi_documents_loop hash client_folder_id st1 rest
      (⟨att.filename, fid, file_hash⟩ :: entries, st2)

/-! ## Orchestrator agent (`services/email_agent.py`) -/

/-- Embedding of steps 3 and 4 of `EmailAgent.process_incoming_email`
(email_agent.py lines 133-151), the document-processing and
memory-update phase reached once a broker and a client are resolved.

The Python local `processed_docs` is only assigned inside
`if email.attachments:`; the binding is modelled explicitly with an
`Option`, and reading an unbound local raises `UnboundLocalError`.
When attachments are present, line 135 calls the four-parameter
coroutine method `DocumentOrchestrator.process_attachments` with three
arguments (`mistral_service` is missing) and without `await`; the call
raises `TypeError` before the orchestrator body runs. -/
def agent_docs_then_memory (email : EmailData)
    (oracle : String → String → Option String) (ctxStore : List DossierContext)
    (client : Client) (classification_resume : String) (action_type : String)
    (now : Nat) : Except String (List DossierContext) :=
  let step3 : Except String (Option (List ProcessedDoc)) :=
    if email.attachments.isEmpty then
      .ok none
    else
      .error "TypeError: process_attachments() missing 1 required positional argument: mistral_service"
  match step3 with
  | .error e => .error e
  | .ok processed_docs =>
    match processed_docs with
    | none => .error "UnboundLocalError: local variable processed_docs referenced before assignment"
    | some docs =>
      let _narrative_event :=
        "Reçu email: " ++ classification_resume ++ ". " ++
          (if !docs.isEmpty then
            "Documents traités : " ++ String.intercalate ", " (docs.map (·.final_name)) ++ "."
          else "")
      match update_context_with_email oracle ctxStore client.id email.body_text action_type now with
      | .error (e, _) => .error e
      | .ok store2 => .ok store2

/-! ## Shared helper lemmas -/

/-- Comparison of `UInt32` values is comparison of their underlying
naturals. -/
theorem uint32_le_iff_toNat (a b : UInt32) : (a ≤ b) ↔ (a.toNat ≤ b.toNat) := by
  rw [UInt32.le_def]
  rfl

/-- Lowercasing a character never yields an ASCII uppercase letter. -/
theorem char_toLower_not_upper (c : Char) : (Char.toLower c).isUpper = false := by
  unfold Char.toLower
  by_cases h : c.toNat ≥ 65 ∧ c.toNat ≤ 90
  · rw [if_pos h]
    have hvalid : (c.toNat + 32).isValidChar := Or.inl (by omega)
    have htn : (Char.ofNat (c.toNat + 32)).toNat = c.toNat + 32 := by
      unfold Char.ofNat
      rw [dif_pos hvalid]
      rfl
    unfold Char.isUpper
    have h90 : ¬((Char.ofNat (c.toNat + 32)).val ≤ 90) := by
      rw [uint32_le_iff_toNat]
      show ¬((Char.ofNat (c.toNat + 32)).toNat ≤ (90 : UInt32).toNat)
      rw [htn]
      show ¬(c.toNat + 32 ≤ 90)
      omega
    simp [h90]
  · rw [if_neg h]
    unfold Char.isUpper
    rcases Nat.lt_or_ge c.toNat 65 with h65 | h65
    · have hlt : ¬((65 : UInt32) ≤ c.val) := by
        rw [uint32_le_iff_toNat]
        show ¬(65 ≤ c.toNat)
        omega
      simp [hlt]
    · have h90 : ¬(c.toNat ≤ 90) := fun hc => h ⟨h65, hc⟩
      have hgt : ¬(c.val ≤ (90 : UInt32)) := by
        rw [uint32_le_iff_toNat]
        show ¬(c.toNat ≤ 90)
        omega
      simp [hgt]

/-- Every character of a lowercased string is non-uppercase. -/
theorem string_toLower_no_upper (s : String) : ∀ c ∈ (pyLower s).data, c.isUpper = false := by
  intro c hc
  obtain ⟨d, _, rfl⟩ := List.mem_map.mp hc
  exact char_toLower_not_upper d

/-- `insertEmail` preserves freedom from duplicates. -/
theorem insertEmail_nodup {l : List String} (h : l.Nodup) (e : String) :
    (insertEmail l e).Nodup := by
  unfold insertEmail
  split
  · exact h
  · next he => exact List.nodup_append.mpr ⟨h, List.nodup_singleton e, by simpa using he⟩

/-- `insertEmail` only adds the given element. -/
theorem insertEmail_subset (l : List String) (e x : String)
    (hx : x ∈ insertEmail l e) : x ∈ l ∨ x = e := by
  unfold insertEmail at hx
  split at hx
  · exact Or.inl hx
  · rcases List.mem_append.mp hx with h | h
    · exact Or.inl h
    · exact Or.inr (List.mem_singleton.mp h)

/-- `insertEmail` keeps existing elements. -/
theorem insertEmail_mem_of_mem (l : List String) (e x : String)
    (hx : x ∈ l) : x ∈ insertEmail l e := by
  unfold insertEmail
  split
  · exact hx
  · exact List.mem_append.mpr (Or.inl hx)

/-- The inserted element is a member. -/
theorem insertEmail_mem_self (l : List String) (e : String) : e ∈ insertEmail l e := by
  unfold insertEmail
  split
  · assumption
  · exact List.mem_append.mpr (Or.inr (List.mem_singleton.mpr rfl))

/-- Invariant preservation along a left fold. -/
theorem foldl_invariant {α β : Type} (P : β → Prop) (f : β → α → β)
    (hstep : ∀ b a, P b → P (f b a)) :
    ∀ (l : List α) (b : β), P b → P (l.foldl f b) := by
  intro l
  induction l with
  | nil => intro b hb; exact hb
  | cons a t ih => intro b hb; exact ih (f b a) (hstep b a hb)

/-! ## Claim theorems -/

/-- Every step of the extraction either keeps the accumulator or inserts
a lowercased string, so any property preserved by such insertions and
holding after the sender step holds of the final extraction result. -/
theorem extract_invariant (P : List String → Prop) (fromAddress : String)
    (toAddresses ccAddresses bodyEmails fwdMatches : List String)
    (hins : ∀ (l : List String) (y : String), P l → P (insertEmail l (pyLower y)))
    (hs0 : P (if fromAddress ≠ "" then insertEmail [] (pyLower fromAddress) else [])) :
    P (extract_all_emails_from_message fromAddress toAddresses ccAddresses bodyEmails fwdMatches) := by
  simp only [extract_all_emails_from_message]
  apply foldl_invariant
  · intro b m hb
    dsimp only
    split
    · exact hins _ _ hb
    · exact hb
  · apply foldl_invariant
    · intro b e hb
      exact hins _ _ hb
    · apply foldl_invariant
      · intro b a hb
        dsimp only
        split
        · exact hins _ _ hb
        · exact hb
      · exact hs0

/-- C10: for every inbound message, the address-extraction step returns a
list in which every element is lowercase and no address appears twice,
and which contains the sender's address (lowercased) whenever the message
has one — for any outcome of the body regex scans. -/
theorem c10_extraction_lowercase_nodup_sender (fromAddress : String)
    (toAddresses ccAddresses bodyEmails fwdMatches : List String) :
    (extract_all_emails_from_message fromAddress toAddresses ccAddresses bodyEmails fwdMatches).Nodup ∧
    (∀ e ∈ extract_all_emails_from_message fromAddress toAddresses ccAddresses bodyEmails fwdMatches,
      ∀ c ∈ e.data, c.isUpper = false) ∧
    (fromAddress ≠ "" →
      pyLower fromAddress ∈
        extract_all_emails_from_message fromAddress toAddresses ccAddresses bodyEmails fwdMatches) := by
  have hmain := extract_invariant
    (fun acc => (acc.Nodup ∧ ∀ e ∈ acc, ∀ c ∈ e.data, c.isUpper = false) ∧
      (fromAddress ≠ "" → pyLower fromAddress ∈ acc))
    fromAddress toAddresses ccAddresses bodyEmails fwdMatches ?hins ?hs0
  case hins =>
    intro l y hl
    obtain ⟨⟨h1, h2⟩, h3⟩ := hl
    refine ⟨⟨insertEmail_nodup h1 _, ?_⟩, fun hne => insertEmail_mem_of_mem _ _ _ (h3 hne)⟩
    intro e he c hc
    rcases insertEmail_subset l (pyLower y) e he with h | h
    · exact h2 e h c hc
    · subst h
      exact string_toLower_no_upper y c hc
  case hs0 =>
    split
    · refine ⟨⟨insertEmail_nodup List.nodup_nil _, ?_⟩, fun _ => insertEmail_mem_self _ _⟩
      intro e he c hc
      rcases insertEmail_subset [] (pyLower fromAddress) e he with h | h
      · simp at h
      · subst h
        exact string_toLower_no_upper fromAddress c hc
    · next hne =>
      exact ⟨⟨List.nodup_nil, by simp⟩, fun hf => absurd hf hne⟩
  obtain ⟨⟨h1, h2⟩, h3⟩ := hmain
  exact ⟨h1, h2, h3⟩

/-- C10 witness: concrete instantiation of the extraction properties. -/
theorem c10_witness :
    (extract_all_emails_from_message "Client@Example.COM" ["leonie@voxperience.com"] []
      ["other@x.fr", "CLIENT@example.com"] ["  <Someone@Y.com> "]).Nodup ∧
    (∀ e ∈ extract_all_emails_from_message "Client@Example.COM" ["leonie@voxperience.com"] []
      ["other@x.fr", "CLIENT@example.com"] ["  <Someone@Y.com> "],
      ∀ c ∈ e.data, c.isUpper = false) ∧
    ("Client@Example.COM" ≠ "" →
      pyLower "Client@Example.COM" ∈
        extract_all_emails_from_message "Client@Example.COM" ["leonie@voxperience.com"] []
          ["other@x.fr", "CLIENT@example.com"] ["  <Someone@Y.com> "]) :=
  c10_extraction_lowercase_nodup_sender "Client@Example.COM" ["leonie@voxperience.com"] []
    ["other@x.fr", "CLIENT@example.com"] ["  <Someone@Y.com> "]

/-- Searching by id commutes with mapping an id-preserving function. -/
theorem find_map_id_preserving (g : Client → Client) (hg : ∀ d, (g d).id = d.id)
    (l : List Client) (cid : Nat) :
    (l.map g).find? (fun d => d.id == cid) = (l.find? (fun d => d.id == cid)).map g := by
  induction l with
  | nil => rfl
  | cons a t ih =>
    by_cases h : a.id = cid
    · have h1 : ((g a).id == cid) = true := by rw [hg a]; exact beq_iff_eq.mpr h
      have h2 : (a.id == cid) = true := beq_iff_eq.mpr h
      simp [List.find?, h1, h2]
    · have h1 : ((g a).id == cid) = false := by rw [hg a]; exact beq_eq_false_iff_ne.mpr h
      have h2 : (a.id == cid) = false := beq_eq_false_iff_ne.mpr h
      simp [List.find?, h1, h2, ih]

/-- The update function of `add_secondary_email` preserves ids. -/
theorem addSec_update_id (cid : Nat) (a : String) (d : Client) :
    ((fun d => if d.id == cid
      then { d with emails_secondaires := d.emails_secondaires ++ [a] }
      else d) d : Client).id = d.id := by
  dsimp only
  split <;> rfl

/-- C8: on a matched case, the matched address is appended to the
secondary list exactly when it is neither the primary nor already listed
(`add_secondary_email` semantics); the append is idempotent; neither the
append nor a resolution ever removes a secondary address (each client's
list only grows, element-wise); and re-running the resolution with the
same addresses leaves the client table unchanged. -/
theorem c8_secondary_append_idempotent_monotone (clients : List Client)
    (cid : Nat) (a : String) (allEmails : List String) (courtier : Courtier) :
    (∀ c, clients.find? (fun d => d.id == cid) = some c →
      (a ∉ c.emails_secondaires →
        ∃ c2, (add_secondary_email clients cid a).find? (fun d => d.id == cid) = some c2 ∧
          c2.emails_secondaires = c.emails_secondaires ++ [a]) ∧
      (a ∈ c.emails_secondaires → add_secondary_email clients cid a = clients)) ∧
    add_secondary_email (add_secondary_email clients cid a) cid a
      = add_secondary_email clients cid a ∧
    (add_secondary_email clients cid a).length = clients.length ∧
    List.Forall₂ (fun c0 c1 : Client =>
      ∃ t, c1.emails_secondaires = c0.emails_secondaires ++ t)
      clients (add_secondary_email clients cid a) ∧
    (identify_client_from_email clients allEmails courtier).clients = clients := by
  have hg : ∀ d : Client, ((fun d => if d.id == cid
      then { d with emails_secondaires := d.emails_secondaires ++ [a] }
      else d) d : Client).id = d.id := addSec_update_id cid a
  refine ⟨?_, ?_, ?_, ?_, ?_⟩
  · -- conditional append
    intro c hc
    constructor
    · intro ha
      unfold add_secondary_email
      rw [hc]
      dsimp only
      rw [if_neg ha]
      rw [find_map_id_preserving _ hg clients cid, hc]
      have hcid : (c.id == cid) = true := by
        have := List.find?_some hc
        simpa using this
      refine ⟨_, rfl, ?_⟩
      dsimp only [Option.map]
      rw [if_pos hcid]
    · intro ha
      unfold add_secondary_email
      rw [hc]
      dsimp only
      rw [if_pos ha]
  · -- idempotence
    cases hc : clients.find? (fun d => d.id == cid) with
    | none =>
      have h1 : add_secondary_email clients cid a = clients := by
        unfold add_secondary_email
        rw [hc]
      rw [h1, h1]
    | some c =>
      by_cases ha : a ∈ c.emails_secondaires
      · have h1 : add_secondary_email clients cid a = clients := by
          unfold add_secondary_email
          rw [hc]
          dsimp only
          rw [if_pos ha]
        rw [h1, h1]
      · have h1 : add_secondary_email clients cid a = clients.map
            (fun d => if d.id == cid
              then { d with emails_secondaires := d.emails_secondaires ++ [a] }
              else d) := by
          unfold add_secondary_email
          rw [hc]
          dsimp only
          rw [if_neg ha]
        have hcid : (c.id == cid) = true := by
          have := List.find?_some hc
          simpa using this
        have h2 : add_secondary_email (clients.map
            (fun d => if d.id == cid
              then { d with emails_secondaires := d.emails_secondaires ++ [a] }
              else d)) cid a = clients.map
            (fun d => if d.id == cid
              then { d with emails_secondaires := d.emails_secondaires ++ [a] }
              else d) := by
          unfold add_secondary_email
          rw [find_map_id_preserving _ hg clients cid, hc]
          dsimp only [Option.map]
          rw [if_pos hcid]
          dsimp only
          rw [if_pos (List.mem_append_right _ (List.mem_singleton.mpr rfl))]
        rw [h1, h2]
  · -- length preserved
    unfold add_secondary_email
    cases hc : clients.find? (fun d => d.id == cid) with
    | none => rfl
    | some c =>
      dsimp only
      split
      · rfl
      · exact List.length_map clients _
  · -- element-wise growth: no secondary address is ever removed
    cases hc : clients.find? (fun d => d.id == cid) with
    | none =>
      have h1 : add_secondary_email clients cid a = clients := by
        unfold add_secondary_email
        rw [hc]
      rw [h1]
      exact List.forall₂_same.mpr (fun c0 _ => ⟨[], by simp⟩)
    | some c =>
      by_cases ha : a ∈ c.emails_secondaires
      · have h1 : add_secondary_email clients cid a = clients := by
          unfold add_secondary_email
          rw [hc]
          dsimp only
          rw [if_pos ha]
        rw [h1]
        exact List.forall₂_same.mpr (fun c0 _ => ⟨[], by simp⟩)
      · have h1 : add_secondary_email clients cid a = clients.map
            (fun d => if d.id == cid
              then { d with emails_secondaires := d.emails_secondaires ++ [a] }
              else d) := by
          unfold add_secondary_email
          rw [hc]
          dsimp only
          rw [if_neg ha]
        rw [h1, List.forall₂_map_right_iff]
        refine List.forall₂_same.mpr ?_
        intro d _
        split
        · exact ⟨[a], rfl⟩
        · exact ⟨[], by simp⟩
  · -- a resolution never modifies the client table
    simp only [identify_client_from_email]
    cases hfind : find_client_by_email_list clients (candidateEmails allEmails courtier.email)
        courtier.id with
    | none => rfl
    | some client =>
      dsimp only
      by_cases hp : pyLower client.email_principal ∈ candidateEmails allEmails courtier.email
      · rw [if_pos hp]
        dsimp only
        rw [if_neg ?_]
        rintro ⟨hne, _⟩
        exact hne rfl
      · rw [if_neg hp]
        cases hfd : (candidateEmails allEmails courtier.email).find?
            (fun e => e ∈ client.emails_secondaires.map pyLower) with
        | none => rfl
        | some m =>
          dsimp only
          rw [if_neg ?_]
          rintro ⟨_, hnm⟩
          have := List.find?_some hfd
          exact hnm (by simpa using this)

/-- Lowercasing acts on the character list. -/
theorem pyLower_data (s : String) : (pyLower s).data = s.data.map Char.toLower := rfl

/-- Every generated temporary address ends in `@temp.leonie.local`. -/
theorem tempEmail_suffix (p : Option String) (n : String) :
    ("@temp.leonie.local" : String).data <:+ (tempEmail p n).data := by
  unfold tempEmail
  rw [pyLower_data]
  rw [String.data_append (prenomOrClient p ++ "." ++ n) "@temp.leonie.local"]
  rw [List.map_append]
  have hfix : List.map Char.toLower ("@temp.leonie.local" : String).data
      = ("@temp.leonie.local" : String).data := by decide
  rw [hfix]
  exact List.suffix_append _ _

/-- A principal-pass hit names one of the searched addresses as the
client's primary address. -/
theorem findByPrincipalPass_spec (clients : List Client) (emails : List String)
    (cid : Nat) (c : Client) :
    findByPrincipalPass clients emails cid = some c →
    ∃ e ∈ emails, c.email_principal = e := by
  induction emails with
  | nil => intro h; cases h
  | cons e rest ih =>
    intro h
    unfold findByPrincipalPass at h
    cases hg : get_client_by_email clients e (some cid) with
    | some c2 =>
      rw [hg] at h
      cases h
      have hp := List.find?_some hg
      have : (c.email_principal == e) = true := by
        cases hand : (c.email_principal == e) with
        | true => rfl
        | false => rw [Bool.and_eq_true] at hp; rw [hand] at hp; exact absurd hp.1 (by simp)
      exact ⟨e, List.mem_cons_self e rest, by simpa using this⟩
    | none =>
      rw [hg] at h
      obtain ⟨e2, he2, hp⟩ := ih h
      exact ⟨e2, List.mem_cons_of_mem e he2, hp⟩

/-- A hit of `find_client_by_email_list` is matched through one of the
searched addresses: either as the client's primary address or as one of
its listed secondary addresses. -/
theorem find_client_by_email_list_spec (clients : List Client) (emails : List String)
    (cid : Nat) (c : Client) :
    find_client_by_email_list clients emails cid = some c →
    ∃ e ∈ emails, c.email_principal = e ∨ e ∈ c.emails_secondaires := by
  intro h
  unfold find_client_by_email_list at h
  cases hp : findByPrincipalPass clients emails cid with
  | some c2 =>
    rw [hp] at h
    cases h
    obtain ⟨e, he, heq⟩ := findByPrincipalPass_spec clients emails cid c hp
    exact ⟨e, he, Or.inl heq⟩
  | none =>
    rw [hp] at h
    have hfound := List.find?_some h
    rw [List.any_eq_true] at hfound
    obtain ⟨e, he, hmem⟩ := hfound
    exact ⟨e, he, Or.inr (by simpa using hmem)⟩

/-- The client returned by the resolver is the one produced by the
candidate lookup. -/
theorem identify_client_eq_find (clients : List Client) (allEmails : List String)
    (courtier : Courtier) :
    (identify_client_from_email clients allEmails courtier).client
      = find_client_by_email_list clients (candidateEmails allEmails courtier.email)
          courtier.id := by
  simp only [identify_client_from_email]
  cases hfind : find_client_by_email_list clients (candidateEmails allEmails courtier.email)
      courtier.id with
  | none => rfl
  | some client =>
    dsimp only
    by_cases hp : pyLower client.email_principal ∈ candidateEmails allEmails courtier.email
    · rw [if_pos hp]
      dsimp only
      split <;> rfl
    · rw [if_neg hp]
      cases hfd : (candidateEmails allEmails courtier.email).find?
          (fun e => e ∈ client.emails_secondaires.map pyLower) with
      | none => rfl
      | some m =>
        dsimp only
        split <;> rfl

/-- The broker's own (lowercased) address never survives the candidate
filter. -/
theorem courtier_email_not_candidate (allEmails : List String) (courtierEmail : String) :
    pyLower courtierEmail ∉ candidateEmails allEmails courtierEmail := by
  intro hmem
  rw [candidateEmails, List.mem_filter] at hmem
  obtain ⟨-, hcond⟩ := hmem
  rw [Bool.and_eq_true] at hcond
  have h1 := hcond.1
  rw [Bool.not_eq_eq_eq_not, Bool.not_true] at h1
  have hmem2 : pyLower courtierEmail ∈ excludedEmails courtierEmail :=
    List.mem_cons_self _ _
  have := List.elem_eq_true_of_mem hmem2
  rw [show (excludedEmails courtierEmail).elem (pyLower courtierEmail)
      = (excludedEmails courtierEmail).contains (pyLower courtierEmail) from rfl, h1] at this
  cases this

/-- C5: when the sender of a message is the (forwarding) broker — the
broker record's address equals the sender's address up to case — the
sender's address is excluded from the candidate set, every resolver match
goes through a non-sender candidate address, and a client created from
the message never takes the sender's address as its primary email. -/
theorem c5_broker_sender_excluded (clients : List Client) (allEmails : List String)
    (courtier : Courtier) (sender : String)
    (hfwd : pyLower courtier.email = pyLower sender) :
    pyLower sender ∉ candidateEmails allEmails courtier.email ∧
    (∀ c, (identify_client_from_email clients allEmails courtier).client = some c →
      ∃ e ∈ candidateEmails allEmails courtier.email,
        (c.email_principal = e ∨ e ∈ c.emails_secondaires) ∧ e ≠ pyLower sender) ∧
    (∀ (nextId : Nat) (details : Details) (drive : DriveState) (res : CreateClientResult),
      create_client_from_email_and_classification clients nextId allEmails courtier details
        drive = .ok res →
      ¬ (("@temp.leonie.local" : String).data <:+ (pyLower sender).data) →
      res.client.email_principal ≠ pyLower sender) := by
  have hnot : pyLower sender ∉ candidateEmails allEmails courtier.email := by
    rw [← hfwd]
    exact courtier_email_not_candidate allEmails courtier.email
  refine ⟨hnot, ?_, ?_⟩
  · intro c hc
    rw [identify_client_eq_find] at hc
    obtain ⟨e, he, hmatch⟩ := find_client_by_email_list_spec clients _ courtier.id c hc
    refine ⟨e, he, hmatch, ?_⟩
    intro heq
    rw [heq] at he
    exact hnot he
  · intro nextId details drive res hok htemp heq
    unfold create_client_from_email_and_classification at hok
    cases hnom : details.client_nom with
    | none => rw [hnom] at hok; cases hok
    | some nom =>
      rw [hnom] at hok
      dsimp only at hok
      by_cases hnil : (nom == "") = true
      · rw [if_pos hnil] at hok; cases hok
      · rw [if_neg hnil] at hok
        cases hfol : courtier.dossier_drive_id with
        | none => rw [hfol] at hok; cases hok
        | some courtier_folder =>
          rw [hfol] at hok
          dsimp only at hok
          cases hok
          cases hhead : (candidateEmails allEmails courtier.email).head? with
          | some e =>
            rw [hhead] at heq
            dsimp only at heq
            have he : e ∈ candidateEmails allEmails courtier.email :=
              List.mem_of_mem_head? (by rw [hhead]; exact rfl)
            rw [heq] at he
            exact hnot he
          | none =>
            rw [hhead] at heq
            dsimp only at heq
            have hsuf := tempEmail_suffix details.client_prenom nom
            rw [heq] at hsuf
            exact htemp hsuf

/-- A sample client table with one client holding one secondary address. -/
def sampleClients : List Client :=
  [{ id := 7, courtier_id := 1, nom := "Dupont", prenom := "Jean",
     email_principal := "jean@x.com", emails_secondaires := ["old@x.com"],
     dossier_drive_id := some 50, type_pret := "immobilier", statut := "en_cours" }]

/-- A sample broker. -/
def sampleCourtier : Courtier := { id := 1, email := "Broker@B.com", dossier_drive_id := some 9, actif := true }

/-- C8 witness: a fresh address is appended to the sample client's
secondary list. -/
theorem c8_witness :
    ∃ c2, (add_secondary_email sampleClients 7 "new@y.com").find? (fun d => d.id == 7) = some c2 ∧
      c2.emails_secondaires = ["old@x.com"] ++ ["new@y.com"] :=
  ((c8_secondary_append_idempotent_monotone sampleClients 7 "new@y.com" ["old@x.com"]
      sampleCourtier).1
    { id := 7, courtier_id := 1, nom := "Dupont", prenom := "Jean",
      email_principal := "jean@x.com", emails_secondaires := ["old@x.com"],
      dossier_drive_id := some 50, type_pret := "immobilier", statut := "en_cours" }
    (by decide)).1 (by decide)

/-- C5 witness: for a forwarding broker the sender address is dropped
from the candidate set. -/
theorem c5_witness :
    pyLower "broker@b.com" ∉ candidateEmails ["broker@b.com", "client@x.com"] "Broker@B.com" :=
  (c5_broker_sender_excluded sampleClients ["broker@b.com", "client@x.com"]
    sampleCourtier "broker@b.com" (by decide)).1

/-- C6: when every classification-oracle attempt fails, `classify_email`
returns the fallback instead of raising: intent "documents sent" with
detail count `N` for a message with `N ≥ 1` attachments, intent
"question" otherwise, and confidence `0.3 ≤ 0.5` in both cases. -/
theorem c6_classification_fallback (oracle : Nat → AttemptOutcome) (email : EmailData)
    (hfail : ∀ (n : Nat) (c : EmailClassification), oracle n ≠ .ok c) :
    (email.attachments.length ≥ 1 →
      (classify_email oracle email).action = .ENVOI_DOCUMENTS ∧
      (classify_email oracle email).details.nombre_pieces = some email.attachments.length) ∧
    (email.attachments.length = 0 → (classify_email oracle email).action = .QUESTION) ∧
    (classify_email oracle email).confiance = 3/10 ∧
    (classify_email oracle email).confiance ≤ 1/2 := by
  have hh : ∀ n, oracle n = .jsonError ∨ oracle n = .apiError := by
    intro n
    cases h : oracle n with
    | ok c => exact absurd h (hfail n c)
    | jsonError => exact Or.inl rfl
    | apiError => exact Or.inr rfl
  have hres : classify_email oracle email = get_fallback_classification email := by
    rcases hh 1 with h1 | h1 <;> rcases hh 2 with h2 | h2 <;> rcases hh 3 with h3 | h3 <;>
      simp [classify_email, classifyAttempts, h1, h2, h3]
  rw [hres]
  unfold get_fallback_classification
  by_cases hatt : email.attachments.length > 0
  · rw [if_pos hatt]
    exact ⟨fun _ => ⟨rfl, rfl⟩, fun h0 => absurd h0 (by omega), rfl, by norm_num⟩
  · rw [if_neg hatt]
    exact ⟨fun h1 => absurd h1 (by omega), fun _ => rfl, rfl, by norm_num⟩

/-- A sample message carrying two document attachments. -/
def sampleEmailAtt : EmailData :=
  { from_address := "c@x.com", to_addresses := [], cc_addresses := [],
    subject := "Documents", body_text := "corps",
    attachments := [⟨"CNI.pdf", [0]⟩, ⟨"paie.pdf", [1]⟩] }

/-- C6 witness: an unreachable oracle on the two-attachment sample yields
the documents-sent fallback with count 2. -/
theorem c6_witness :
    (classify_email (fun _ => .apiError) sampleEmailAtt).action = .ENVOI_DOCUMENTS ∧
    (classify_email (fun _ => .apiError) sampleEmailAtt).details.nombre_pieces
      = some sampleEmailAtt.attachments.length :=
  (c6_classification_fallback (fun _ => .apiError) sampleEmailAtt
    (fun _ c h => AttemptOutcome.noConfusion h)).1 (by decide)

/-- C7: when the memory-fold oracle fails, `update_context_with_email`
propagates the failure and the narrative store is exactly the store
before the call — the prior narrative is never cleared or truncated. -/
theorem c7_narrative_unchanged_on_oracle_failure
    (oracle : String → String → Option String) (store : List DossierContext)
    (client_id : Nat) (content atype : String) (now : Nat) (ctx : DossierContext)
    (hctx : get_dossier_context store client_id = some ctx)
    (hfail : ∀ cur ev, oracle cur ev = none) :
    update_context_with_email oracle store client_id content atype now
      = .error ("Erreur appel Mistral (update_narrative_context)", store) := by
  unfold update_context_with_email get_or_init_context
  rw [hctx]
  dsimp only
  rw [hfail]

/-- C7 witness: a failing oracle leaves the sample narrative store
untouched. -/
theorem c7_witness :
    update_context_with_email (fun _ _ => none) [⟨7, some "ancien récit", 3⟩] 7 "corps"
        "QUESTION" 9
      = .error ("Erreur appel Mistral (update_narrative_context)", [⟨7, some "ancien récit", 3⟩]) :=
  c7_narrative_unchanged_on_oracle_failure (fun _ _ => none) [⟨7, some "ancien récit", 3⟩] 7
    "corps" "QUESTION" 9 ⟨7, some "ancien récit", 3⟩ (by decide) (fun _ _ => rfl)

/-- C4: for a resolved message with no attachments, the document-and-
memory phase of the orchestrator raises `UnboundLocalError` — the Python
local `processed_docs` is only assigned inside `if email.attachments:` —
so the Case Memory fold is never reached. -/
theorem c4_memory_fold_unreachable_without_attachments (email : EmailData)
    (oracle : String → String → Option String) (ctxStore : List DossierContext)
    (client : Client) (classification_resume action_type : String) (now : Nat)
    (h : email.attachments = []) :
    agent_docs_then_memory email oracle ctxStore client classification_resume action_type now
      = .error "UnboundLocalError: local variable processed_docs referenced before assignment" := by
  unfold agent_docs_then_memory
  rw [h]
  rfl

/-- A sample message with no attachments. -/
def sampleEmailNoAtt : EmailData :=
  { from_address := "c@x.com", to_addresses := [], cc_addresses := [],
    subject := "Question", body_text := "corps", attachments := [] }

/-- C4 witness: the failure on the concrete attachment-free sample. -/
theorem c4_witness :
    agent_docs_then_memory sampleEmailNoAtt (fun _ _ => some "résumé")
        [⟨7, some "ancien", 0⟩]
        { id := 7, courtier_id := 1, nom := "Dupont", prenom := "Jean",
          email_principal := "jean@x.com", emails_secondaires := [],
          dossier_drive_id := some 50, type_pret := "immobilier", statut := "en_cours" }
        "resume" "QUESTION" 9
      = .error "UnboundLocalError: local variable processed_docs referenced before assignment" :=
  c4_memory_fold_unreachable_without_attachments sampleEmailNoAtt (fun _ _ => some "résumé")
    [⟨7, some "ancien", 0⟩]
    { id := 7, courtier_id := 1, nom := "Dupont", prenom := "Jean",
      email_principal := "jean@x.com", emails_secondaires := [],
      dossier_drive_id := some 50, type_pret := "immobilier", statut := "en_cours" }
    "resume" "QUESTION" 9 rfl

/-- C2: resubmitting an attachment with identical bytes — hence an
identical content hash — leads to a second Drive upload: the worker loop
computes the hash but never consults it (the duplicate check is a `TODO`
comment), so the store gains one file per submission. -/
theorem c2_duplicate_hash_uploaded_again (hash : List Nat → String)
    (st : DriveState) (folder : Nat) :
    (process_envoi_documents_loop hash folder st [⟨"CNI.pdf", [1, 2, 3]⟩]).2.files.length
      = st.files.length + 1 ∧
    (process_envoi_documents_loop hash folder
        (process_envoi_documents_loop hash folder st [⟨"CNI.pdf", [1, 2, 3]⟩]).2
        [⟨"CNI.pdf", [1, 2, 3]⟩]).2.files.length
      = st.files.length + 2 ∧
    (∀ p1 ∈ (process_envoi_documents_loop hash folder st [⟨"CNI.pdf", [1, 2, 3]⟩]).1,
      ∀ p2 ∈ (process_envoi_documents_loop hash folder
          (process_envoi_documents_loop hash folder st [⟨"CNI.pdf", [1, 2, 3]⟩]).2
          [⟨"CNI.pdf", [1, 2, 3]⟩]).1,
        p1.file_hash = p2.file_hash) := by
  refine ⟨?_, ?_, ?_⟩
  · simp [process_envoi_documents_loop, upload_file]
  · simp [process_envoi_documents_loop, upload_file]
  · intro p1 h1 p2 h2
    simp only [process_envoi_documents_loop, upload_file] at h1 h2
    simp at h1 h2
    rw [h1, h2]

/-- The orchestrator environment used for the concrete scenarios: the
analysis oracle types CNI-named files as identity documents and every
external call succeeds. -/
def sampleEnv : OrchEnv :=
  { analyze := fun fn => if fn == "CNI.pdf" || fn == "cni2.pdf" then "CNI_RECTO" else "AUTRE_DOCUMENT"
    heifSupport := true
    maxSizeOk := fun _ => true
    imageConvertOk := fun _ => true
    officeConvertOk := fun _ => true
    downloadOk := fun _ => true
    updateOk := fun _ => true
    uploadOk := fun _ => true }

/-- A client record without a Drive folder reference. -/
def clientNoFolder : Client :=
  { id := 7, courtier_id := 1, nom := "Dupont", prenom := "Jean",
    email_principal := "jean@x.com", emails_secondaires := [],
    dossier_drive_id := none, type_pret := "immobilier", statut := "en_cours" }

/-- The empty orchestrator state. -/
def emptyOrchState : OrchState := ⟨⟨[], [], 0⟩, ⟨[], 0⟩⟩

/-- C3 counterexample: with an attachment present and a case lacking a
storage-folder reference, `process_attachments` does not raise — it
returns the empty list and stores nothing (the claim asserts it raises). -/
theorem c3_counterexample :
    process_attachments sampleEnv [] [⟨"CNI.pdf", [1]⟩] clientNoFolder emptyOrchState 0
      = .ok ([], emptyOrchState) := rfl

/-- C3 amended: a missing storage-folder reference on the Case makes
`process_attachments` return the empty list without raising and without
storing anything; only the missing storage-folder reference on the
Broker, checked during client creation, raises a `ValueError`. -/
theorem c3_missing_folder_silent_return_vs_broker_raise
    (env : OrchEnv) (known : List (String × Nat)) (atts : List EmailAttachment)
    (client : Client) (st : OrchState) (now : Nat)
    (hmissing : client.dossier_drive_id = none) :
    process_attachments env known atts client st now = .ok ([], st) ∧
    (∀ (clients : List Client) (nextId : Nat) (allEmails : List String)
        (courtier : Courtier) (details : Details) (drive : DriveState) (nom : String),
      details.client_nom = some nom → (nom == "") = false →
      courtier.dossier_drive_id = none →
      create_client_from_email_and_classification clients nextId allEmails courtier details drive
        = .error "Courtier n'a pas de dossier_drive_id. Impossible de créer dossier client.") := by
  constructor
  · unfold process_attachments
    rw [hmissing]
  · intro clients nextId allEmails courtier details drive nom hnom hnil hfol
    unfold create_client_from_email_and_classification
    rw [hnom]
    dsimp only
    rw [hnil]
    simp only [Bool.false_eq_true, if_false]
    rw [hfol]

/-- C3 amended witness: the two behaviours on concrete inputs. -/
theorem c3_amended_witness :
    process_attachments sampleEnv [] [⟨"CNI.pdf", [2]⟩] clientNoFolder emptyOrchState 5
      = .ok ([], emptyOrchState) ∧
    (∀ (clients : List Client) (nextId : Nat) (allEmails : List String)
        (courtier : Courtier) (details : Details) (drive : DriveState) (nom : String),
      details.client_nom = some nom → (nom == "") = false →
      courtier.dossier_drive_id = none →
      create_client_from_email_and_classification clients nextId allEmails courtier details drive
        = .error "Courtier n'a pas de dossier_drive_id. Impossible de créer dossier client.") :=
  c3_missing_folder_silent_return_vs_broker_raise sampleEnv [] [⟨"CNI.pdf", [2]⟩]
    clientNoFolder emptyOrchState 5 rfl

/-- A raised group error leaves the orchestrator state exactly as it was
when the group started: every raise point of the group body precedes its
first state mutation. -/
theorem processGroup_error_state_eq (env : OrchEnv) (known : List (String × Nat))
    (client : Client) (folder_id now : Nat) (st : OrchState) (mt : String)
    (paths : List LocalFile) (e : String) (st2 : OrchState)
    (h : processGroup env known client folder_id now st mt paths = .error (e, st2)) :
    st2 = st := by
  unfold processGroup at h
  split at h
  · cases h
    rfl
  · cases h
  · dsimp only at h
    split at h
    · split at h
      · cases h
        rfl
      · split at h
        · cases h
          rfl
        · split at h
          · cases h
            rfl
          · split at h
            · cases h
              rfl
            · cases h
    · split at h
      · cases h
        rfl
      · cases h

/-- Dropping a group that fails (at the state it would encounter) from
the message leaves the whole per-group loop result unchanged. -/
theorem processGroupsLoop_drop_failing (env : OrchEnv) (known : List (String × Nat))
    (client : Client) (folder_id now : Nat) (g : String × List LocalFile)
    (post : List (String × List LocalFile)) :
    ∀ (pre : List (String × List LocalFile)) (st : OrchState) (e : String) (stE : OrchState),
    processGroup env known client folder_id now
        (processGroupsLoop env known client folder_id now st pre).2 g.1 g.2 = .error (e, stE) →
    processGroupsLoop env known client folder_id now st (pre ++ g :: post)
      = processGroupsLoop env known client folder_id now st (pre ++ post) := by
  intro pre
  induction pre with
  | nil =>
    intro st e stE hfail
    have hst : (processGroupsLoop env known client folder_id now st []).2 = st := rfl
    rw [hst] at hfail
    have heq := processGroup_error_state_eq env known client folder_id now st g.1 g.2 e stE hfail
    rw [heq] at hfail
    show processGroupsLoop env known client folder_id now st (g :: post)
      = processGroupsLoop env known client folder_id now st post
    conv_lhs => unfold processGroupsLoop
    rw [hfail]
  | cons p pre ih =>
    intro st e stE hfail
    have hunf : ∀ (l : List (String × List LocalFile)),
        processGroupsLoop env known client folder_id now st (p :: l)
        = match processGroup env known client folder_id now st p.1 p.2 with
          | .error (_, s2) => processGroupsLoop env known client folder_id now s2 l
          | .ok (none, s2) => processGroupsLoop env known client folder_id now s2 l
          | .ok (some doc, s2) =>
            let r := processGroupsLoop env known client folder_id now s2 l
            (doc :: r.1, r.2) := by
      intro l
      conv_lhs => unfold processGroupsLoop
    cases hp : processGroup env known client folder_id now st p.1 p.2 with
    | error pr =>
      have hstep : (processGroupsLoop env known client folder_id now st (p :: pre)).2
          = (processGroupsLoop env known client folder_id now pr.2 pre).2 := by
        rw [hunf pre, hp]
      rw [hstep] at hfail
      rw [List.cons_append, List.cons_append, hunf (pre ++ g :: post), hunf (pre ++ post), hp]
      exact ih pr.2 e stE hfail
    | ok pr =>
      obtain ⟨doc?, s2⟩ := pr
      cases doc? with
      | none =>
        have hstep : (processGroupsLoop env known client folder_id now st (p :: pre)).2
            = (processGroupsLoop env known client folder_id now s2 pre).2 := by
          rw [hunf pre, hp]
        rw [hstep] at hfail
        rw [List.cons_append, List.cons_append, hunf (pre ++ g :: post), hunf (pre ++ post), hp]
        exact ih s2 e stE hfail
      | some doc =>
        have hstep : (processGroupsLoop env known client folder_id now st (p :: pre)).2
            = (processGroupsLoop env known client folder_id now s2 pre).2 := by
          rw [hunf pre, hp]
        rw [hstep] at hfail
        rw [List.cons_append, List.cons_append, hunf (pre ++ g :: post), hunf (pre ++ post), hp]
        dsimp only
        rw [ih s2 e stE hfail]

/-- A group whose own processing succeeds with an entry contributes that
entry to the loop's result, whatever the surrounding groups do. -/
theorem processGroupsLoop_mem_of_ok (env : OrchEnv) (known : List (String × Nat))
    (client : Client) (folder_id now : Nat) (g : String × List LocalFile)
    (post : List (String × List LocalFile)) :
    ∀ (pre : List (String × List LocalFile)) (st : OrchState) (d : ProcessedDoc)
      (st2 : OrchState),
    processGroup env known client folder_id now
        (processGroupsLoop env known client folder_id now st pre).2 g.1 g.2 = .ok (some d, st2) →
    d ∈ (processGroupsLoop env known client folder_id now st (pre ++ g :: post)).1 := by
  intro pre
  induction pre with
  | nil =>
    intro st d st2 hok
    have hst : (processGroupsLoop env known client folder_id now st []).2 = st := rfl
    rw [hst] at hok
    show d ∈ (processGroupsLoop env known client folder_id now st (g :: post)).1
    conv_lhs => unfold processGroupsLoop
    rw [hok]
    exact List.mem_cons_self _ _
  | cons p pre ih =>
    intro st d st2 hok
    have hunf : ∀ (l : List (String × List LocalFile)),
        processGroupsLoop env known client folder_id now st (p :: l)
        = match processGroup env known client folder_id now st p.1 p.2 with
          | .error (_, s2) => processGroupsLoop env known client folder_id now s2 l
          | .ok (none, s2) => processGroupsLoop env known client folder_id now s2 l
          | .ok (some doc, s2) =>
            let r := processGroupsLoop env known client folder_id now s2 l
            (doc :: r.1, r.2) := by
      intro l
      conv_lhs => unfold processGroupsLoop
    cases hp : processGroup env known client folder_id now st p.1 p.2 with
    | error pr =>
      have hstep : (processGroupsLoop env known client folder_id now st (p :: pre)).2
          = (processGroupsLoop env known client folder_id now pr.2 pre).2 := by
        rw [hunf pre, hp]
      rw [hstep] at hok
      rw [List.cons_append, hunf (pre ++ g :: post), hp]
      exact ih pr.2 d st2 hok
    | ok pr =>
      obtain ⟨doc?, s2⟩ := pr
      cases doc? with
      | none =>
        have hstep : (processGroupsLoop env known client folder_id now st (p :: pre)).2
            = (processGroupsLoop env known client folder_id now s2 pre).2 := by
          rw [hunf pre, hp]
        rw [hstep] at hok
        rw [List.cons_append, hunf (pre ++ g :: post), hp]
        exact ih s2 d st2 hok
      | some doc =>
        have hstep : (processGroupsLoop env known client folder_id now st (p :: pre)).2
            = (processGroupsLoop env known client folder_id now s2 pre).2 := by
          rw [hunf pre, hp]
        rw [hstep] at hok
        rw [List.cons_append, hunf (pre ++ g :: post), hp]
        dsimp only
        exact List.mem_cons_of_mem doc (ih s2 d st2 hok)

/-- C9: within one message, a failure while consolidating one attachment
group is caught per group: it leaves the orchestrator state untouched, the
remaining groups are processed exactly as if the failing group were
absent, and every group whose own processing succeeds still contributes
its reconciled-and-registered entry to the result. -/
theorem c9_group_failure_isolated (env : OrchEnv) (known : List (String × Nat))
    (client : Client) (folder_id now : Nat) (g : String × List LocalFile)
    (pre post : List (String × List LocalFile)) (st : OrchState) :
    (∀ (st0 : OrchState) (e : String) (st2 : OrchState),
      processGroup env known client folder_id now st0 g.1 g.2 = .error (e, st2) → st2 = st0) ∧
    (∀ (e : String) (stE : OrchState),
      processGroup env known client folder_id now
          (processGroupsLoop env known client folder_id now st pre).2 g.1 g.2 = .error (e, stE) →
      processGroupsLoop env known client folder_id now st (pre ++ g :: post)
        = processGroupsLoop env known client folder_id now st (pre ++ post)) ∧
    (∀ (d : ProcessedDoc) (st2 : OrchState),
      processGroup env known client folder_id now
          (processGroupsLoop env known client folder_id now st pre).2 g.1 g.2 = .ok (some d, st2) →
      d ∈ (processGroupsLoop env known client folder_id now st (pre ++ g :: post)).1) :=
  ⟨fun st0 e st2 h => processGroup_error_state_eq env known client folder_id now st0 g.1 g.2 e st2 h,
   fun e stE h => processGroupsLoop_drop_failing env known client folder_id now g post pre st e stE h,
   fun d st2 h => processGroupsLoop_mem_of_ok env known client folder_id now g post pre st d st2 h⟩

/-- C9 witness: a group raising an unsupported-format error (a `.exe`
attachment) is dropped from the loop without affecting the identity-card
group behind it. -/
theorem c9_witness :
    processGroupsLoop sampleEnv [("CNI", 33)] clientNoFolder 50 0 emptyOrchState
        ([] ++ ("VIRUS", [("/tmp/virus.exe", [5])]) :: [("CNI", [("/tmp/CNI.pdf", [1, 2])])])
      = processGroupsLoop sampleEnv [("CNI", 33)] clientNoFolder 50 0 emptyOrchState
        ([] ++ [("CNI", [("/tmp/CNI.pdf", [1, 2])])]) :=
  (c9_group_failure_isolated sampleEnv [("CNI", 33)] clientNoFolder 50 0
      ("VIRUS", [("/tmp/virus.exe", [5])]) []
      [("CNI", [("/tmp/CNI.pdf", [1, 2])])] emptyOrchState).2.1
    "Format de fichier non supporté: .exe" emptyOrchState rfl

/-! ## C1 infrastructure: master-file counting and store well-formedness -/

/-- Number of files with the given name in the given folder. -/
def countNamed (st : DriveState) (name : String) (folder : Nat) : Nat :=
  (st.files.filter (fun f => f.name == name && f.folder == folder)).length

/-- Well-formedness of the Drive store: file identifiers are below the
allocation counter and pairwise distinct. -/
def DriveWf (st : DriveState) : Prop :=
  (∀ f ∈ st.files, f.id < st.nextId) ∧ (st.files.map (fun f => f.id)).Nodup

/-- A name hit belongs to the store with that name and folder. -/
theorem find_file_by_name_mem (st : DriveState) (name : String) (folder fid : Nat)
    (h : find_file_by_name st name folder = some fid) :
    ∃ f ∈ st.files, f.id = fid ∧ f.name = name ∧ f.folder = folder := by
  unfold find_file_by_name at h
  cases hh : (st.files.filter (fun f => f.name == name && f.folder == folder)).head? with
  | none => rw [hh] at h; cases h
  | some f0 =>
    rw [hh] at h
    have hh2 : f0 ∈ (st.files.filter (fun f => f.name == name && f.folder == folder)).head? := by
      rw [hh]
      exact rfl
    have hmem := List.mem_of_mem_head? hh2
    rw [List.mem_filter] at hmem
    obtain ⟨hmem, hp⟩ := hmem
    rw [Bool.and_eq_true, beq_iff_eq, beq_iff_eq] at hp
    cases h
    exact ⟨f0, hmem, rfl, hp.1, hp.2⟩

/-- With no file of that name the lookup reports absence. -/
theorem find_file_by_name_none (st : DriveState) (name : String) (folder : Nat)
    (h : countNamed st name folder = 0) :
    find_file_by_name st name folder = none := by
  unfold find_file_by_name
  unfold countNamed at h
  rw [List.length_eq_zero] at h
  rw [h]
  rfl

/-- Among files with pairwise distinct ids, searching a member's id finds
that member. -/
theorem find_by_id_of_mem (files : List DriveFile) (f : DriveFile)
    (hwf : (files.map (fun f => f.id)).Nodup) (hf : f ∈ files) :
    files.find? (fun g => g.id == f.id) = some f := by
  induction files with
  | nil => cases hf
  | cons g rest ih =>
    rw [List.map_cons, List.nodup_cons] at hwf
    rcases List.mem_cons.mp hf with rfl | hf2
    · rw [List.find?_cons_of_pos _ (by simp)]
    · have hne : (g.id == f.id) = false := by
        rw [beq_eq_false_iff_ne]
        intro heq
        exact hwf.1 (heq ▸ List.mem_map_of_mem (fun f => f.id) hf2)
      rw [List.find?_cons_of_neg _ (by simp [hne])]
      exact ih hwf.2 hf2

/-- In a well-formed store, downloading a member file returns its pages. -/
theorem download_file_of_mem (st : DriveState) (f : DriveFile)
    (hwf : (st.files.map (fun f => f.id)).Nodup) (hf : f ∈ st.files) :
    download_file st f.id = some f.pages := by
  unfold download_file
  rw [find_by_id_of_mem st.files f hwf hf]
  rfl

/-- Updating a file's content changes neither the file count under a name
nor the number of files. -/
theorem countNamed_update (st : DriveState) (fid : Nat) (pg : List Page)
    (name : String) (folder : Nat) :
    countNamed (update_file st fid pg) name folder = countNamed st name folder := by
  unfold countNamed update_file
  dsimp only
  rw [List.filter_map]
  rw [List.length_map]
  congr 1
  apply List.filter_congr
  intro f _
  dsimp only [Function.comp]
  split <;> rfl

/-- Uploading under a name increments that name's file count. -/
theorem countNamed_upload (st : DriveState) (P : List Page) (folder : Nat)
    (name : String) :
    countNamed (upload_file st P folder name).2 name folder
      = countNamed st name folder + 1 := by
  unfold countNamed upload_file
  dsimp only
  rw [List.filter_append]
  rw [List.length_append]
  congr 1
  simp

/-- Uploading preserves store well-formedness. -/
theorem driveWf_upload (st : DriveState) (P : List Page) (folder : Nat)
    (name : String) (hwf : DriveWf st) : DriveWf (upload_file st P folder name).2 := by
  obtain ⟨h1, h2⟩ := hwf
  constructor
  · intro f hf
    unfold upload_file at hf
    dsimp only at hf
    rcases List.mem_append.mp hf with h | h
    · exact Nat.lt_succ_of_lt (h1 f h)
    · rw [List.mem_singleton] at h
      subst h
      exact Nat.lt_succ_self _
  · unfold upload_file
    dsimp only
    rw [List.map_append]
    rw [List.nodup_append]
    refine ⟨h2, List.nodup_singleton _, ?_⟩
    intro x hx
    simp only [List.map_cons, List.map_nil, List.mem_singleton]
    obtain ⟨f, hf, rfl⟩ := List.mem_map.mp hx
    exact Nat.ne_of_lt (h1 f hf)

/-- Updating a file's content preserves store well-formedness. -/
theorem driveWf_update (st : DriveState) (fid : Nat) (pg : List Page)
    (hwf : DriveWf st) : DriveWf (update_file st fid pg) := by
  obtain ⟨h1, h2⟩ := hwf
  constructor
  · intro f hf
    unfold update_file at hf
    dsimp only at hf
    obtain ⟨g, hg, hfg⟩ := List.mem_map.mp hf
    have : f.id = g.id := by
      subst hfg
      split <;> rfl
    rw [this]
    exact h1 g hg
  · unfold update_file
    dsimp only
    rw [List.map_map]
    have : ((fun f => f.id) ∘ fun f : DriveFile =>
        if f.id == fid then { f with pages := pg } else f) = fun f : DriveFile => f.id := by
      funext f
      dsimp only [Function.comp]
      split <;> rfl
    rw [this]
    exact h2

/-- All external Drive transfers of the environment succeed. -/
def EnvReliable (env : OrchEnv) : Prop :=
  (∀ i, env.downloadOk i = true) ∧ (∀ i, env.updateOk i = true) ∧ (∀ s, env.uploadOk s = true)

/-- Merging the downloaded master with the new local document keeps the
existing pages first and appends the new ones. -/
theorem merge_pdfs_pair (a b : List Page) : merge_pdfs [a, b] = .ok (a ++ b) := by
  simp [merge_pdfs]

/-- Append branch of the master reconciliation: when a file with the
canonical master name exists, the group body downloads it, merges the
existing pages first with the new pages appended, and overwrites it in
place under the same identifier. -/
theorem processGroup_append (env : OrchEnv) (known : List (String × Nat))
    (client : Client) (folder now : Nat) (st : OrchState) (mt : String)
    (paths : List LocalFile) (localPath : String) (P : List Page) (fid : Nat)
    (hrel : EnvReliable env)
    (hcons : consolidate_local_files env paths mt client.id = .ok (some (localPath, P)))
    (hfind : find_file_by_name st.drive (generate_master_name mt client) folder = some fid)
    (hwf : DriveWf st.drive) :
    ∃ (oldPages : List Page) (doc : ProcessedDoc) (db1 : PiecesDb),
      download_file st.drive fid = some oldPages ∧
      processGroup env known client folder now st mt paths
        = .ok (some doc, ⟨update_file st.drive fid (oldPages ++ P), db1⟩) ∧
      doc.file_id = fid ∧
      doc.final_name = generate_master_name mt client := by
  obtain ⟨f, hfmem, hfid, hfname, hffol⟩ :=
    find_file_by_name_mem st.drive (generate_master_name mt client) folder fid hfind
  have hdl : download_file st.drive fid = some f.pages := by
    rw [← hfid]
    exact download_file_of_mem st.drive f hwf.2 hfmem
  have hdOk := hrel.1 fid
  have huOk := hrel.2.1 fid
  refine ⟨f.pages,
    { original_name := toString paths.length ++ " fichiers fusionnés"
      final_name := generate_master_name mt client
      type := mt
      file_id := fid
      status := "processed"
      db_id := (register_in_database known st.db client.id mt
        (generate_master_name mt client) fid now).1 },
    (register_in_database known st.db client.id mt
      (generate_master_name mt client) fid now).2,
    hdl, ?_, rfl, rfl⟩
  unfold processGroup
  rw [hcons]
  dsimp only
  rw [hfind]
  dsimp only
  rw [if_neg (by rw [hdOk]; simp)]
  rw [hdl]
  dsimp only
  rw [merge_pdfs_pair f.pages P]
  dsimp only
  rw [if_neg (by rw [huOk]; simp)]

/-- Create branch of the master reconciliation: when no file with the
canonical master name exists, the group body uploads the consolidated
document as a new master file. -/
theorem processGroup_create (env : OrchEnv) (known : List (String × Nat))
    (client : Client) (folder now : Nat) (st : OrchState) (mt : String)
    (paths : List LocalFile) (localPath : String) (P : List Page)
    (hrel : EnvReliable env)
    (hcons : consolidate_local_files env paths mt client.id = .ok (some (localPath, P)))
    (hfind : find_file_by_name st.drive (generate_master_name mt client) folder = none) :
    ∃ (doc : ProcessedDoc) (db1 : PiecesDb),
      processGroup env known client folder now st mt paths
        = .ok (some doc, ⟨(upload_file st.drive P folder (generate_master_name mt client)).2, db1⟩) ∧
      doc.file_id = st.drive.nextId ∧
      doc.final_name = generate_master_name mt client := by
  have huOk := hrel.2.2 (generate_master_name mt client)
  refine ⟨
    { original_name := toString paths.length ++ " fichiers fusionnés"
      final_name := generate_master_name mt client
      type := mt
      file_id := st.drive.nextId
      status := "processed"
      db_id := (register_in_database known st.db client.id mt
        (generate_master_name mt client) st.drive.nextId now).1 },
    (register_in_database known st.db client.id mt
      (generate_master_name mt client) st.drive.nextId now).2,
    ?_, rfl, rfl⟩
  unfold processGroup
  rw [hcons]
  dsimp only
  rw [hfind]
  dsimp only
  rw [if_neg (by rw [huOk]; simp)]
  rfl

/-- After uploading the first master file under a fresh name, the name
lookup returns exactly that file's identifier. -/
theorem find_after_upload (st : DriveState) (P : List Page) (folder : Nat)
    (name : String) (h : countNamed st name folder = 0) :
    find_file_by_name (upload_file st P folder name).2 name folder = some st.nextId := by
  unfold countNamed at h
  rw [List.length_eq_zero] at h
  unfold find_file_by_name upload_file
  dsimp only
  rw [List.filter_append, h]
  simp

/-- C1: per `(case, master type)` group, `process_attachments` derives a
canonical master name deterministically from the master type and the
client's name; if a file with exactly that name exists in the case folder
it is downloaded, merged with the new consolidated document (existing
pages first, new pages appended) and overwritten in place under the same
identifier with the name's file count unchanged; if not, the consolidated
document is uploaded as a new master file; hence two deliveries of the
same type accumulate into exactly one growing master file. -/
theorem c1_master_append_or_create :
    (∀ (mt : String) (c1 c2 : Client), c1.nom = c2.nom → c1.prenom = c2.prenom →
      generate_master_name mt c1 = generate_master_name mt c2) ∧
    (∀ (env : OrchEnv) (known : List (String × Nat)) (client : Client)
        (folder now : Nat) (st : OrchState) (mt : String) (paths : List LocalFile)
        (localPath : String) (P : List Page) (fid : Nat),
      EnvReliable env →
      consolidate_local_files env paths mt client.id = .ok (some (localPath, P)) →
      find_file_by_name st.drive (generate_master_name mt client) folder = some fid →
      DriveWf st.drive →
      ∃ (oldPages : List Page) (doc : ProcessedDoc) (db1 : PiecesDb),
        download_file st.drive fid = some oldPages ∧
        processGroup env known client folder now st mt paths
          = .ok (some doc, ⟨update_file st.drive fid (oldPages ++ P), db1⟩) ∧
        doc.file_id = fid ∧
        countNamed (update_file st.drive fid (oldPages ++ P))
            (generate_master_name mt client) folder
          = countNamed st.drive (generate_master_name mt client) folder ∧
        (update_file st.drive fid (oldPages ++ P)).files.length
          = st.drive.files.length) ∧
    (∀ (env : OrchEnv) (known : List (String × Nat)) (client : Client)
        (folder now : Nat) (st : OrchState) (mt : String) (paths : List LocalFile)
        (localPath : String) (P : List Page),
      EnvReliable env →
      consolidate_local_files env paths mt client.id = .ok (some (localPath, P)) →
      find_file_by_name st.drive (generate_master_name mt client) folder = none →
      ∃ (doc : ProcessedDoc) (db1 : PiecesDb),
        processGroup env known client folder now st mt paths
          = .ok (some doc,
              ⟨(upload_file st.drive P folder (generate_master_name mt client)).2, db1⟩) ∧
        doc.file_id = st.drive.nextId ∧
        countNamed (upload_file st.drive P folder (generate_master_name mt client)).2
            (generate_master_name mt client) folder
          = countNamed st.drive (generate_master_name mt client) folder + 1) ∧
    (∀ (env : OrchEnv) (known : List (String × Nat)) (client : Client)
        (folder now1 now2 : Nat) (st : OrchState) (mt : String)
        (paths1 paths2 : List LocalFile) (p1 : String) (P1 : List Page)
        (p2 : String) (P2 : List Page),
      EnvReliable env → DriveWf st.drive →
      countNamed st.drive (generate_master_name mt client) folder = 0 →
      consolidate_local_files env paths1 mt client.id = .ok (some (p1, P1)) →
      consolidate_local_files env paths2 mt client.id = .ok (some (p2, P2)) →
      ∃ (doc1 : ProcessedDoc) (st1 : OrchState) (doc2 : ProcessedDoc) (st2 : OrchState),
        processGroup env known client folder now1 st mt paths1 = .ok (some doc1, st1) ∧
        processGroup env known client folder now2 st1 mt paths2 = .ok (some doc2, st2) ∧
        doc2.file_id = doc1.file_id ∧
        countNamed st2.drive (generate_master_name mt client) folder = 1 ∧
        ∃ f ∈ st2.drive.files, f.id = doc1.file_id ∧
          f.name = generate_master_name mt client ∧ f.folder = folder ∧
          f.pages = P1 ++ P2) ∧
    (∀ (env : OrchEnv) (known : List (String × Nat)) (atts : List EmailAttachment)
        (client : Client) (st : OrchState) (now folder : Nat) (mt : String)
        (paths : List LocalFile) (doc : ProcessedDoc) (st2 : OrchState),
      client.dossier_drive_id = some folder →
      groupAttachments env atts = [(mt, paths)] →
      processGroup env known client folder now st mt paths = .ok (some doc, st2) →
      process_attachments env known atts client st now = .ok ([doc], st2)) := by
  refine ⟨?_, ?_, ?_, ?_, ?_⟩
  · -- deterministic canonical name
    intro mt c1 c2 h1 h2
    unfold generate_master_name
    rw [h1, h2]
  · -- append in place
    intro env known client folder now st mt paths localPath P fid hrel hcons hfind hwf
    obtain ⟨oldPages, doc, db1, hdl, hrun, hfid, hname⟩ :=
      processGroup_append env known client folder now st mt paths localPath P fid
        hrel hcons hfind hwf
    exact ⟨oldPages, doc, db1, hdl, hrun, hfid,
      countNamed_update st.drive fid (oldPages ++ P) _ folder,
      List.length_map _ _⟩
  · -- create when absent
    intro env known client folder now st mt paths localPath P hrel hcons hfind
    obtain ⟨doc, db1, hrun, hfid, hname⟩ :=
      processGroup_create env known client folder now st mt paths localPath P
        hrel hcons hfind
    exact ⟨doc, db1, hrun, hfid,
      countNamed_upload st.drive P folder (generate_master_name mt client)⟩
  · -- accumulation across two deliveries
    intro env known client folder now1 now2 st mt paths1 paths2 p1 P1 p2 P2
      hrel hwf hcount0 hcons1 hcons2
    have hfind1 : find_file_by_name st.drive (generate_master_name mt client) folder = none :=
      find_file_by_name_none st.drive _ folder hcount0
    obtain ⟨doc1, db1, hrun1, hfid1, hname1⟩ :=
      processGroup_create env known client folder now1 st mt paths1 p1 P1
        hrel hcons1 hfind1
    have hupl : (upload_file st.drive P1 folder (generate_master_name mt client)).2.files
        = st.drive.files ++ [⟨st.drive.nextId, generate_master_name mt client, folder, P1⟩] := rfl
    have hwf1 : DriveWf (upload_file st.drive P1 folder (generate_master_name mt client)).2 :=
      driveWf_upload st.drive P1 folder _ hwf
    have hfind2 : find_file_by_name
        (upload_file st.drive P1 folder (generate_master_name mt client)).2
        (generate_master_name mt client) folder = some st.drive.nextId :=
      find_after_upload st.drive P1 folder _ hcount0
    obtain ⟨oldPages, doc2, db2, hdl2, hrun2, hfid2, hname2⟩ :=
      processGroup_append env known client folder now2
        ⟨(upload_file st.drive P1 folder (generate_master_name mt client)).2, db1⟩
        mt paths2 p2 P2 st.drive.nextId hrel hcons2 hfind2 hwf1
    have hnewmem : (⟨st.drive.nextId, generate_master_name mt client, folder, P1⟩ : DriveFile)
        ∈ (upload_file st.drive P1 folder (generate_master_name mt client)).2.files := by
      rw [hupl]
      exact List.mem_append_right _ (List.mem_singleton.mpr rfl)
    have hdlP1 : download_file
        (upload_file st.drive P1 folder (generate_master_name mt client)).2
        st.drive.nextId = some P1 :=
      download_file_of_mem _ _ hwf1.2 hnewmem
    have holdP1 : oldPages = P1 := by
      rw [hdlP1] at hdl2
      exact (Option.some_injective _ hdl2).symm
    subst holdP1
    refine ⟨doc1, _, doc2, _, hrun1, hrun2, by rw [hfid2, hfid1], ?_, ?_⟩
    · dsimp only
      rw [countNamed_update, countNamed_upload, hcount0]
    · refine ⟨⟨st.drive.nextId, generate_master_name mt client, folder, oldPages ++ P2⟩, ?_, ?_, rfl, rfl, rfl⟩
      · dsimp only
        unfold update_file
        dsimp only
        have := List.mem_map_of_mem
          (fun f : DriveFile => if f.id == st.drive.nextId then { f with pages := oldPages ++ P2 } else f)
          hnewmem
        simpa using this
      · rw [hfid1]
  · -- single-group message through process_attachments
    intro env known atts client st now folder mt paths doc st2 hfol hgroup hok
    unfold process_attachments
    rw [hfol]
    dsimp only
    rw [hgroup]
    conv_lhs => unfold processGroupsLoop
    rw [hok]
    rfl

/-- A sample client with a Drive case folder. -/
def sampleClientFolder : Client :=
  { id := 7, courtier_id := 1, nom := "Dupont", prenom := "Jean",
    email_principal := "jean@x.com", emails_secondaires := [],
    dossier_drive_id := some 50, type_pret := "immobilier", statut := "en_cours" }

/-- C1 witness: two one-page deliveries of identity documents for the
sample client accumulate into a single master file holding both page
runs. -/
theorem c1_witness :
    ∃ (doc1 : ProcessedDoc) (st1 : OrchState) (doc2 : ProcessedDoc) (st2 : OrchState),
      processGroup sampleEnv [("CNI", 33)] sampleClientFolder 50 5 emptyOrchState "CNI"
          [("/tmp/CNI.pdf", [10, 11])] = .ok (some doc1, st1) ∧
      processGroup sampleEnv [("CNI", 33)] sampleClientFolder 50 6 st1 "CNI"
          [("/tmp/cni2.pdf", [20])] = .ok (some doc2, st2) ∧
      doc2.file_id = doc1.file_id ∧
      countNamed st2.drive (generate_master_name "CNI" sampleClientFolder) 50 = 1 ∧
      ∃ f ∈ st2.drive.files, f.id = doc1.file_id ∧
        f.name = generate_master_name "CNI" sampleClientFolder ∧ f.folder = 50 ∧
        f.pages = [10, 11] ++ [20] :=
  c1_master_append_or_create.2.2.2.1 sampleEnv [("CNI", 33)] sampleClientFolder 50 5 6
    emptyOrchState "CNI" [("/tmp/CNI.pdf", [10, 11])] [("/tmp/cni2.pdf", [20])]
    "/tmp/CNI.pdf" [10, 11] "/tmp/cni2.pdf" [20]
    ⟨fun _ => rfl, fun _ => rfl, fun _ => rfl⟩
    ⟨fun f hf => absurd hf (List.not_mem_nil f), List.nodup_nil⟩
    rfl rfl rfl

/-- C2 witness: submitting the same attachment twice to an empty store
yields two stored files with identical hashes. -/
theorem c2_witness :
    (process_envoi_documents_loop (fun _ => "h") 40 ⟨[], [], 0⟩
        [⟨"CNI.pdf", [1, 2, 3]⟩]).2.files.length
      = (⟨[], [], 0⟩ : DriveState).files.length + 1 ∧
    (process_envoi_documents_loop (fun _ => "h") 40
        (process_envoi_documents_loop (fun _ => "h") 40 ⟨[], [], 0⟩
          [⟨"CNI.pdf", [1, 2, 3]⟩]).2
        [⟨"CNI.pdf", [1, 2, 3]⟩]).2.files.length
      = (⟨[], [], 0⟩ : DriveState).files.length + 2 ∧
    (∀ p1 ∈ (process_envoi_documents_loop (fun _ => "h") 40 ⟨[], [], 0⟩
        [⟨"CNI.pdf", [1, 2, 3]⟩]).1,
      ∀ p2 ∈ (process_envoi_documents_loop (fun _ => "h") 40
          (process_envoi_documents_loop (fun _ => "h") 40 ⟨[], [], 0⟩
            [⟨"CNI.pdf", [1, 2, 3]⟩]).2
          [⟨"CNI.pdf", [1, 2, 3]⟩]).1,
        p1.file_hash = p2.file_hash) :=
  c2_duplicate_hash_uploaded_again (fun _ => "h") ⟨[], [], 0⟩ 40

end Leonie
